import Mathlib

/-!
Verification of the Scoundrel card-game engine (`src/cards.rs`, `src/deck.rs`,
`src/game.rs`) against its natural-language specification.

The Rust code is shallowly embedded: machine integers become `Nat`/`Int`
(no overflow is reachable in the quantities involved: HP stays in a small
range, per-turn counters are reset at 3, card values are at most 14),
`Vec` becomes `List`, `Option` stays `Option`, and the mutable `Game`
struct becomes a record threaded through pure functions.  The only impure
ingredients of the engine are the RNG used by `Deck::shuffle` (the shuffled
deck is taken as a parameter), the system clock read by `now_ts` (threaded
as the `sys_time` field), and leaderboard file I/O (out of scope; the
in-memory leaderboard list is part of the state).
-/

namespace Scoundrel

/-- `Suit` from `cards.rs`. -/
inductive Suit
  | Clubs
  | Diamonds
  | Hearts
  | Spades
deriving DecidableEq, Repr

/-- `Rank(pub u8)` from `cards.rs`. -/
structure Rank where
  val : Nat
deriving DecidableEq, Repr

/-- `Card` from `cards.rs`. -/
structure Card where
  suit : Suit
  rank : Rank
deriving DecidableEq, Repr

/-- `Card::is_monster`: clubs and spades are monsters. -/
def Card.is_monster (c : Card) : Bool :=
  match c.suit with
  | Suit.Clubs => true
  | Suit.Spades => true
  | _ => false

/-- `Card::monster_value`: Ace is 14, 2..=10 as printed, J=11, Q=12, K=13, else 0. -/
def Card.monster_value (c : Card) : Nat :=
  match c.rank.val with
  | 1 => 14
  | n =>
    if 2 ≤ n ∧ n ≤ 10 then n
    else if n = 11 then 11
    else if n = 12 then 12
    else if n = 13 then 13
    else 0

/-- `Deck` from `deck.rs`: `cards` is the draw pile, drawn from the back (`Vec::pop`). -/
structure Deck where
  cards : List Card
deriving DecidableEq, Repr

/-- `Deck::scoundrel_deck`: clubs 1..=13, spades 1..=13, diamonds 2..=10, hearts 2..=10. -/
def Deck.scoundrel_deck : Deck :=
  ⟨((List.range 13).map fun i => Card.mk Suit.Clubs ⟨i + 1⟩)
    ++ ((List.range 13).map fun i => Card.mk Suit.Spades ⟨i + 1⟩)
    ++ ((List.range 9).map fun i => Card.mk Suit.Diamonds ⟨i + 2⟩)
    ++ ((List.range 9).map fun i => Card.mk Suit.Hearts ⟨i + 2⟩)⟩

/-- `Deck::draw` (`Vec::pop`): remove and return the top (= last) card. -/
def Deck.draw (d : Deck) : Option Card × Deck :=
  (d.cards.getLast?, ⟨d.cards.dropLast⟩)

/-- `Deck::len`. -/
def Deck.len (d : Deck) : Nat := d.cards.length

/-- `Deck::is_empty`. -/
def Deck.is_empty (d : Deck) : Bool := d.cards.isEmpty

/-- `Deck::push_bottom` (`Vec::insert(0, card)`): the bottom is the front of the list. -/
def Deck.push_bottom (d : Deck) (c : Card) : Deck := ⟨c :: d.cards⟩

/-- `WeaponState` from `game.rs`. -/
structure WeaponState where
  value : Nat
  last_monster : Option Nat
  stack : List Card
deriving DecidableEq, Repr

/-- `WeaponState::new`. -/
def WeaponState.new (value : Nat) : WeaponState := ⟨value, none, []⟩

/-- `WeaponState::can_use_on`. -/
def WeaponState.can_use_on (w : WeaponState) (monster_value : Nat) : Bool :=
  match w.last_monster with
  | none => true
  | some prev => decide (monster_value ≤ prev)

/-- `Player` from `game.rs`. -/
structure Player where
  hp : Int
  max_hp : Int
  weapon : Option WeaponState
deriving DecidableEq, Repr

/-- `Player::new`. -/
def Player.new : Player := ⟨20, 20, none⟩

/-- `GamePhase` from `game.rs`. -/
inductive GamePhase
  | Menu
  | NameEntry
  | Leaderboard
  | Running
  | GameOver
deriving DecidableEq, Repr

/-- `UseMode` from `game.rs`. -/
inductive UseMode
  | Default
  | Barehand
  | Weapon
deriving DecidableEq, Repr

/-- `ScoreEntry` from `game.rs`. -/
structure ScoreEntry where
  name : String
  score : Int
  won : Bool
  ts : Nat
deriving DecidableEq, Repr

/-- `GameEvent` from `game.rs`. -/
inductive GameEvent
  | RoomStart (number : Nat)
  | Potion (value : Nat) (hp_before : Int) (hp_after : Int)
  | PotionDiscarded (value : Nat)
  | Weapon (value : Nat)
  | Fight (monster : Nat) (with_weapon : Option Nat) (damage_taken : Nat)
  | Avoid
deriving DecidableEq, Repr

/-- The `[Option<Card>; 4]` room array. -/
structure Room where
  s0 : Option Card
  s1 : Option Card
  s2 : Option Card
  s3 : Option Card
deriving DecidableEq, Repr

/-- Array indexing `room[i]`. -/
def Room.get (r : Room) : Fin 4 → Option Card
  | ⟨0, _⟩ => r.s0
  | ⟨1, _⟩ => r.s1
  | ⟨2, _⟩ => r.s2
  | ⟨3, _⟩ => r.s3

/-- Array assignment `room[i] = c`. -/
def Room.set (r : Room) : Fin 4 → Option Card → Room
  | ⟨0, _⟩, c => { r with s0 := c }
  | ⟨1, _⟩, c => { r with s1 := c }
  | ⟨2, _⟩, c => { r with s2 := c }
  | ⟨3, _⟩, c => { r with s3 := c }

/-- `room.iter()` as a list, in slot order. -/
def Room.toList (r : Room) : List (Option Card) := [r.s0, r.s1, r.s2, r.s3]

/-- `room.iter().enumerate().find(|(_, c)| c.is_some())`, index only. -/
def Room.first_occupied (r : Room) : Option (Fin 4) :=
  if r.s0.isSome then some 0
  else if r.s1.isSome then some 1
  else if r.s2.isSome then some 2
  else if r.s3.isSome then some 3
  else none

/-- The `Game` struct from `game.rs`.  The extra `sys_time` field is the
value the ambient clock (`now_ts`, i.e. `SystemTime::now`) would return,
threaded through the state so the embedding stays deterministic. -/
structure Game where
  phase : GamePhase
  player : Player
  deck : Deck
  room : Room
  selected : Fin 4
  choices_this_turn : Nat
  avoided_last_turn : Bool
  potion_used_this_turn : Bool
  discard : List Card
  log : List String
  show_help : Bool
  score : Option Int
  last_card_potion_value : Option Nat
  menu_selected : Nat
  name_input : String
  player_name : String
  history : List GameEvent
  leaderboard : List ScoreEntry
  new_rank_pos : Option Nat
  room_number : Nat
  game_over_scroll : Nat
  sys_time : Nat
deriving DecidableEq, Repr

/-- `Game::visible_count`. -/
def Game.visible_count (g : Game) : Nat :=
  (g.room.toList.filter Option.isSome).length

/-- The predicate of `push_score_and_rank`'s `find`: match by name, score and won. -/
def entry_matches (name : String) (score : Int) (won : Bool) (e : ScoreEntry) : Bool :=
  decide (e.name = name) && decide (e.score = score) && decide (e.won = won)

/-- The descending-by-score comparator of `sort_by(|a,b| b.score.cmp(&a.score))`. -/
def score_desc (a b : ScoreEntry) : Bool := decide (b.score ≤ a.score)

/-- `Game::push_score_and_rank` (its `save_leaderboard` call is file I/O only).
Rust's `sort_by` is a stable sort, embedded as `List.mergeSort`. -/
def Game.push_score_and_rank (g : Game) (won : Bool) : Game :=
  let score := g.score.getD 0
  let entry : ScoreEntry := ⟨g.player_name, score, won, g.sys_time⟩
  let sorted := (g.leaderboard ++ [entry]).mergeSort score_desc
  { g with leaderboard := sorted,
           new_rank_pos := sorted.findIdx? (entry_matches g.player_name score won) }

/-- `Game::finish_victory`. -/
def Game.finish_victory (g : Game) : Game :=
  let g1 := { g with phase := GamePhase.GameOver }
  let score :=
    if g1.player.hp = g1.player.max_hp then
      match g1.last_card_potion_value with
      | some v => g1.player.hp + (v : Int)
      | none => g1.player.hp
    else g1.player.hp
  let g2 := { g1 with score := some score,
                      log := g1.log ++ [s!"You clear the dungeon. Final score: {score}."] }
  let g3 := g2.push_score_and_rank true
  { g3 with game_over_scroll := 0 }

/-- `Game::finish_death`. -/
def Game.finish_death (g : Game) : Game :=
  let g1 := { g with phase := GamePhase.GameOver }
  let penalty : Int :=
    ((g1.deck.cards.filter Card.is_monster).map fun c => (c.monster_value : Int)).sum
      + ((g1.room.toList.reduceOption.filter Card.is_monster).map
          fun c => (c.monster_value : Int)).sum
  let score := g1.player.hp - penalty
  let g2 := { g1 with score := some score,
                      log := g1.log ++ [s!"You fall... Final score: {score}."] }
  let g3 := g2.push_score_and_rank false
  { g3 with game_over_scroll := 0 }

/-- One iteration of `refill_room`'s fill loop at slot `i`:
`if self.room[slot].is_none() && let Some(c) = self.deck.draw() { ... }`. -/
def Game.refill_slot (g : Game) (i : Fin 4) : Game :=
  match g.room.get i with
  | some _ => g
  | none =>
    match g.deck.draw with
    | (some c, d) => { g with deck := d, room := g.room.set i (some c) }
    | (none, _) => g

/-- `Game::refill_room`. -/
def Game.refill_room (g : Game) : Game :=
  let g1 := Game.refill_slot (Game.refill_slot (Game.refill_slot (Game.refill_slot g 0) 1) 2) 3
  let g2 :=
    if (g1.room.get g1.selected).isNone then
      match g1.room.first_occupied with
      | some idx => { g1 with selected := idx }
      | none => g1
    else g1
  if g2.deck.is_empty && decide (g2.visible_count = 0) then g2.finish_victory else g2

/-- `Game::end_turn`. -/
def Game.end_turn (g : Game) : Game :=
  let g1 := { g with avoided_last_turn := false, potion_used_this_turn := false,
                     choices_this_turn := 0 }
  let g2 := g1.refill_room
  if g2.phase = GamePhase.Running then
    { g2 with room_number := g2.room_number + 1,
              history := g2.history ++ [GameEvent.RoomStart (g2.room_number + 1)] }
  else g2

/-- The `use_weapon` flag computed at the top of `resolve_card`'s
Clubs/Spades branch: an equipped, eligible weapon is used unless the mode
is `Barehand`. -/
def Game.use_weapon_decision (g : Game) (mval : Nat) (mode : UseMode) : Bool :=
  match g.player.weapon with
  | some w =>
    if w.can_use_on mval then
      match mode with
      | UseMode.Default => true
      | UseMode.Weapon => true
      | UseMode.Barehand => false
    else false
  | none => false

/-- `Game::resolve_card`. -/
def Game.resolve_card (g : Game) (card : Card) (mode : UseMode) : Game :=
  let g1 :=
    match card.suit with
    | Suit.Hearts =>
      if !g.potion_used_this_turn then
        let val := card.monster_value
        let heal : Int := (val : Int)
        let before := g.player.hp
        let hp2 := min (g.player.hp + heal) g.player.max_hp
        { g with player := { g.player with hp := hp2 },
                 log := g.log ++ [s!"You drink a potion ({heal}). HP {before}→{hp2}."],
                 last_card_potion_value := some val,
                 history := g.history ++ [GameEvent.Potion val before hp2],
                 potion_used_this_turn := true,
                 discard := g.discard ++ [card] }
      else
        { g with log := g.log ++ ["You already used a potion this turn; this one is discarded."],
                 history := g.history ++ [GameEvent.PotionDiscarded card.monster_value],
                 potion_used_this_turn := true,
                 discard := g.discard ++ [card] }
    | Suit.Diamonds =>
      let g2 :=
        match g.player.weapon with
        | some w =>
          { g with player := { g.player with weapon := none },
                   discard := g.discard ++ [Card.mk Suit.Diamonds ⟨w.value⟩] ++ w.stack }
        | none => g
      let val := card.monster_value
      { g2 with player := { g2.player with weapon := some (WeaponState.new val) },
                log := g2.log ++ [s!"You equip a weapon ({val})."],
                history := g2.history ++ [GameEvent.Weapon val] }
    | Suit.Clubs | Suit.Spades =>
      let mval := card.monster_value
      let use_weapon := g.use_weapon_decision mval mode
      if use_weapon then
        match g.player.weapon with
        | some w =>
          let wv := w.value
          let dmg : Int := max ((mval : Int) - (wv : Int)) 0
          let w2 : WeaponState := { w with stack := w.stack ++ [card],
                                           last_monster := some mval }
          if 0 < dmg then
            let before := g.player.hp
            let hp2 := before - dmg
            { g with player := { g.player with hp := hp2, weapon := some w2 },
                     log := g.log ++
                       [s!"You strike with {wv}. Monster {mval} hits back ({dmg} dmg). HP {before}→{hp2}."],
                     history := g.history ++
                       [GameEvent.Fight mval (some wv) dmg.toNat] }
          else
            { g with player := { g.player with weapon := some w2 },
                     log := g.log ++ [s!"You strike with {wv}. Monster {mval} falls."],
                     history := g.history ++ [GameEvent.Fight mval (some wv) 0] }
        | none => g
      else
        let before := g.player.hp
        let hp2 := before - (mval : Int)
        { g with player := { g.player with hp := hp2 },
                 log := g.log ++
                   [s!"You fight barehanded. Monster {mval} hits you ({mval} dmg). HP {before}→{hp2}."],
                 discard := g.discard ++ [card],
                 history := g.history ++ [GameEvent.Fight mval none mval] }
  match card.suit with
  | Suit.Hearts => g1
  | _ => { g1 with last_card_potion_value := none }

/-- `Game::take_selected`. -/
def Game.take_selected (g : Game) (mode : UseMode) : Game :=
  if g.phase ≠ GamePhase.Running then g
  else if 3 ≤ g.choices_this_turn ∧ 2 ≤ g.visible_count then
    Game.end_turn { g with log := g.log ++ ["You\x27ve already taken 3 cards. Ending turn."] }
  else
    match g.room.get g.selected with
    | none => g
    | some card =>
      let g1 := { g with room := g.room.set g.selected none }
      let g2 := g1.resolve_card card mode
      if g2.player.hp ≤ (0 : Int) then g2.finish_death
      else
        let g3 := { g2 with choices_this_turn := g2.choices_this_turn + 1 }
        if g3.visible_count ≤ 1 then g3.end_turn
        else if 3 ≤ g3.choices_this_turn then g3.end_turn
        else g3

/-- One iteration of `avoid_room`'s scoop loop at slot `i`. -/
def Game.scoop_slot (g : Game) (i : Fin 4) : Game :=
  match g.room.get i with
  | some card => { g with room := g.room.set i none, deck := g.deck.push_bottom card }
  | none => g

/-- `Game::avoid_room`. -/
def Game.avoid_room (g : Game) : Game :=
  if g.phase ≠ GamePhase.Running then g
  else if g.avoided_last_turn then
    { g with log := g.log ++ ["You cannot avoid two rooms in a row."] }
  else if g.visible_count < 4 then
    { g with log := g.log ++ ["You may only avoid when 4 cards are visible."] }
  else
    let g1 := Game.scoop_slot (Game.scoop_slot (Game.scoop_slot (Game.scoop_slot g 0) 1) 2) 3
    let g2 := { g1 with avoided_last_turn := true, potion_used_this_turn := false,
                        choices_this_turn := 0,
                        log := g1.log ++ ["You avoid the room, slipping past the dangers."],
                        history := g1.history ++ [GameEvent.Avoid] }
    let g3 := g2.refill_room
    if g3.phase = GamePhase.Running then
      { g3 with room_number := g3.room_number + 1,
                history := g3.history ++ [GameEvent.RoomStart (g3.room_number + 1)] }
    else g3

/-- `Game::new_run`.  `Deck::shuffle` uses the ambient RNG, so the shuffled
deck is a parameter. -/
def Game.new_run (g : Game) (shuffled : Deck) : Game :=
  let g1 := { g with player := Player.new, deck := shuffled,
                     room := Room.mk none none none none, selected := 0,
                     choices_this_turn := 0, avoided_last_turn := false,
                     potion_used_this_turn := false, discard := [],
                     score := none, last_card_potion_value := none,
                     history := [], phase := GamePhase.Running,
                     log := ["A fresh dungeon awaits..."] }
  let g2 := g1.refill_room
  { g2 with room_number := 1, history := g2.history ++ [GameEvent.RoomStart 1] }

/-- `Game::toggle_help`. -/
def Game.toggle_help (g : Game) : Game := { g with show_help := !g.show_help }

/-- Clamping used by `move_selection` (`.clamp(0, 3)`). -/
def clamp03 (x : Int) : Fin 4 :=
  if h : x ≤ 0 then ⟨0, by omega⟩
  else if h2 : 3 ≤ x then ⟨3, by omega⟩
  else ⟨x.toNat, by omega⟩

/-- `Game::move_selection` (the 1x4 layout moves horizontally only). -/
def Game.move_selection (g : Game) (dx : Int) : Game :=
  if g.phase ≠ GamePhase.Running then g
  else { g with selected := clamp03 ((g.selected : Int) + dx) }

/-- `Game::tick` (a no-op placeholder). -/
def Game.tick (g : Game) : Game := g

/-- `Game::select_menu_up`. -/
def Game.select_menu_up (g : Game) : Game :=
  if 0 < g.menu_selected then { g with menu_selected := g.menu_selected - 1 } else g

/-- `Game::select_menu_down`. -/
def Game.select_menu_down (g : Game) : Game :=
  if g.menu_selected < 2 then { g with menu_selected := g.menu_selected + 1 } else g

/-- `Game::menu_activate`. -/
def Game.menu_activate (g : Game) : Game :=
  match g.menu_selected with
  | 0 => { g with phase := GamePhase.NameEntry, name_input := "" }
  | 1 => { g with phase := GamePhase.Leaderboard }
  | _ => g

/-- `Game::name_input_char`. -/
def Game.name_input_char (g : Game) (ch : Char) : Game :=
  if (0x21 ≤ ch.toNat ∧ ch.toNat ≤ 0x7e ∨ ch = ' ') ∧ g.name_input.length < 20 then
    { g with name_input := g.name_input.push ch }
  else g

/-- `Game::name_input_backspace` (`String::pop` removes the last character). -/
def Game.name_input_backspace (g : Game) : Game :=
  { g with name_input := (g.name_input.dropRight 1) }

/-- `Game::name_input_submit`. -/
def Game.name_input_submit (g : Game) (shuffled : Deck) : Game :=
  let g1 :=
    if g.name_input.trim ≠ "" then { g with player_name := g.name_input.trim } else g
  g1.new_run shuffled

/-- The displayed rank on the game-over screen (`ui.rs`:
`format!("New rank: #{}", pos + 1)`). -/
def Game.displayed_rank (g : Game) : Option Nat := g.new_rank_pos.map (· + 1)

/-! ### Auxiliary definitions for stating the claims -/

/-- Resolve a sequence of picked cards (with their usage modes) in order,
without any turn end in between. -/
def Game.resolve_seq (g : Game) : List (Card × UseMode) → Game
  | [] => g
  | (c, m) :: rest => Game.resolve_seq (g.resolve_card c m) rest

/-- The monster values of the resolutions in the sequence that are weapon
fights (a Clubs/Spades card resolved with `use_weapon = true`), in order. -/
def Game.fought_values (g : Game) : List (Card × UseMode) → List Nat
  | [] => []
  | (c, m) :: rest =>
    if (c.suit = Suit.Clubs ∨ c.suit = Suit.Spades)
        ∧ g.use_weapon_decision c.monster_value m = true then
      c.monster_value :: Game.fought_values (g.resolve_card c m) rest
    else Game.fought_values (g.resolve_card c m) rest

/-- No Diamonds card in the sequence: the weapon is never re-equipped. -/
def no_diamond (l : List (Card × UseMode)) : Prop :=
  ∀ p ∈ l, p.1.suit ≠ Suit.Diamonds

/-- How many resolutions in the sequence strictly increase the player's HP. -/
def Game.hp_increase_count (g : Game) : List (Card × UseMode) → Nat
  | [] => 0
  | (c, m) :: rest =>
    (if g.player.hp < (g.resolve_card c m).player.hp then 1 else 0)
      + Game.hp_increase_count (g.resolve_card c m) rest

/-- The public operations of the engine (the input surface consumed from
the UI layer).  Operations that shuffle a fresh deck take the shuffled
deck as data. -/
inductive Op
  | take (m : UseMode)
  | avoid
  | move (dx : Int)
  | newRun (shuffled : Deck)
  | toggleHelp
  | tick
  | menuUp
  | menuDown
  | menuActivate
  | nameChar (ch : Char)
  | nameBackspace
  | nameSubmit (shuffled : Deck)
deriving Repr

/-- Dispatch a public operation to the corresponding `Game` method. -/
def Game.apply_op (g : Game) : Op → Game
  | Op.take m => g.take_selected m
  | Op.avoid => g.avoid_room
  | Op.move dx => g.move_selection dx
  | Op.newRun d => g.new_run d
  | Op.toggleHelp => g.toggle_help
  | Op.tick => g.tick
  | Op.menuUp => g.select_menu_up
  | Op.menuDown => g.select_menu_down
  | Op.menuActivate => g.menu_activate
  | Op.nameChar c => g.name_input_char c
  | Op.nameBackspace => g.name_input_backspace
  | Op.nameSubmit d => g.name_input_submit d

/-- Run a sequence of public operations. -/
def Game.apply_ops (g : Game) (l : List Op) : Game := l.foldl Game.apply_op g

/-- Shorthand card constructors for concrete test states. -/
def club (v : Nat) : Card := ⟨Suit.Clubs, ⟨v⟩⟩

def spade (v : Nat) : Card := ⟨Suit.Spades, ⟨v⟩⟩

def heart (v : Nat) : Card := ⟨Suit.Hearts, ⟨v⟩⟩

def diamond (v : Nat) : Card := ⟨Suit.Diamonds, ⟨v⟩⟩

/-- A concrete mid-run state used as the base of the concrete witnesses:
fresh player, empty room and deck, phase `Running`. -/
def base_game : Game where
  phase := GamePhase.Running
  player := Player.new
  deck := ⟨[]⟩
  room := ⟨none, none, none, none⟩
  selected := 0
  choices_this_turn := 0
  avoided_last_turn := false
  potion_used_this_turn := false
  discard := []
  log := []
  show_help := false
  score := none
  last_card_potion_value := none
  menu_selected := 0
  name_input := ""
  player_name := "Scoundrel"
  history := []
  leaderboard := []
  new_rank_pos := none
  room_number := 1
  game_over_scroll := 0
  sys_time := 0

/-! ### Branch lemmas for `resolve_card` -/

theorem resolve_hearts_used (g : Game) (c : Card) (m : UseMode)
    (hs : c.suit = Suit.Hearts) (hu : g.potion_used_this_turn = true) :
    g.resolve_card c m =
      { g with log := g.log ++
                 ["You already used a potion this turn; this one is discarded."],
               history := g.history ++ [GameEvent.PotionDiscarded c.monster_value],
               potion_used_this_turn := true,
               discard := g.discard ++ [c] } := by
  obtain ⟨s, r⟩ := c
  subst hs
  simp [Game.resolve_card, hu]

theorem resolve_hearts_fresh (g : Game) (c : Card) (m : UseMode)
    (hs : c.suit = Suit.Hearts) (hu : g.potion_used_this_turn = false) :
    g.resolve_card c m =
      { g with player := { g.player with
                 hp := min (g.player.hp + (c.monster_value : Int)) g.player.max_hp },
               log := g.log ++
                 [s!"You drink a potion ({(c.monster_value : Int)}). HP {g.player.hp}→{min (g.player.hp + (c.monster_value : Int)) g.player.max_hp}."],
               last_card_potion_value := some c.monster_value,
               history := g.history ++ [GameEvent.Potion c.monster_value g.player.hp
                 (min (g.player.hp + (c.monster_value : Int)) g.player.max_hp)],
               potion_used_this_turn := true,
               discard := g.discard ++ [c] } := by
  obtain ⟨s, r⟩ := c
  subst hs
  simp [Game.resolve_card, hu]

theorem resolve_diamonds_none (g : Game) (c : Card) (m : UseMode)
    (hs : c.suit = Suit.Diamonds) (hw : g.player.weapon = none) :
    g.resolve_card c m =
      { g with player := { g.player with
                 weapon := some (WeaponState.new c.monster_value) },
               log := g.log ++ [s!"You equip a weapon ({c.monster_value})."],
               history := g.history ++ [GameEvent.Weapon c.monster_value],
               last_card_potion_value := none } := by
  obtain ⟨s, r⟩ := c
  subst hs
  simp [Game.resolve_card, hw]

theorem resolve_diamonds_some (g : Game) (c : Card) (m : UseMode) (w : WeaponState)
    (hs : c.suit = Suit.Diamonds) (hw : g.player.weapon = some w) :
    g.resolve_card c m =
      { g with player := { g.player with
                 weapon := some (WeaponState.new c.monster_value) },
               discard := g.discard ++ [Card.mk Suit.Diamonds ⟨w.value⟩] ++ w.stack,
               log := g.log ++ [s!"You equip a weapon ({c.monster_value})."],
               history := g.history ++ [GameEvent.Weapon c.monster_value],
               last_card_potion_value := none } := by
  obtain ⟨s, r⟩ := c
  subst hs
  simp [Game.resolve_card, hw]

theorem resolve_monster_weapon (g : Game) (c : Card) (m : UseMode) (w : WeaponState)
    (hs : c.suit = Suit.Clubs ∨ c.suit = Suit.Spades)
    (hw : g.player.weapon = some w)
    (hu : g.use_weapon_decision c.monster_value m = true) :
    g.resolve_card c m =
      (let mval := c.monster_value
       let wv := w.value
       let dmg : Int := max ((mval : Int) - (wv : Int)) 0
       let before := g.player.hp
       let hp2 := before - dmg
       { g with player := { g.player with
                  hp := hp2,
                  weapon := some { w with stack := w.stack ++ [c],
                                          last_monster := some mval } },
                log := g.log ++
                  [if 0 < dmg then
                     s!"You strike with {wv}. Monster {mval} hits back ({dmg} dmg). HP {before}→{hp2}."
                   else s!"You strike with {wv}. Monster {mval} falls."],
                history := g.history ++ [GameEvent.Fight mval (some wv) dmg.toNat],
                last_card_potion_value := none }) := by
  obtain ⟨s, r⟩ := c
  rcases hs with h | h <;> subst h <;>
    simp only [Game.resolve_card, hu, hw, if_true] <;>
    split <;>
    simp_all

theorem resolve_monster_barehand (g : Game) (c : Card) (m : UseMode)
    (hs : c.suit = Suit.Clubs ∨ c.suit = Suit.Spades)
    (hu : g.use_weapon_decision c.monster_value m = false) :
    g.resolve_card c m =
      { g with player := { g.player with
                 hp := g.player.hp - (c.monster_value : Int) },
               log := g.log ++
                 [s!"You fight barehanded. Monster {c.monster_value} hits you ({c.monster_value} dmg). HP {g.player.hp}→{g.player.hp - (c.monster_value : Int)}."],
               discard := g.discard ++ [c],
               history := g.history ++
                 [GameEvent.Fight c.monster_value none c.monster_value],
               last_card_potion_value := none } := by
  obtain ⟨s, r⟩ := c
  rcases hs with h | h <;> subst h <;> simp [Game.resolve_card, hu]

/-! ### Weapon lemmas -/

theorem use_weapon_decision_eq_true (g : Game) (mv : Nat) (m : UseMode)
    (h : g.use_weapon_decision mv m = true) :
    ∃ w, g.player.weapon = some w ∧ w.can_use_on mv = true ∧ m ≠ UseMode.Barehand := by
  unfold Game.use_weapon_decision at h
  cases hw : g.player.weapon with
  | none => rw [hw] at h; exact absurd h (by simp)
  | some w =>
    rw [hw] at h
    refine ⟨w, rfl, ?_, ?_⟩ <;> by_cases hc : w.can_use_on mv = true <;>
      cases m <;> simp_all

theorem can_use_on_le (w : WeaponState) (mv p : Nat)
    (hc : w.can_use_on mv = true) (hp : w.last_monster = some p) : mv ≤ p := by
  unfold WeaponState.can_use_on at hc
  rw [hp] at hc
  simpa using hc

/-- A non-Diamonds resolution that is not a weapon fight leaves the
equipped weapon untouched. -/
theorem resolve_weapon_unchanged (g : Game) (c : Card) (m : UseMode)
    (hcd : c.suit ≠ Suit.Diamonds)
    (hf : ¬((c.suit = Suit.Clubs ∨ c.suit = Suit.Spades)
            ∧ g.use_weapon_decision c.monster_value m = true)) :
    (g.resolve_card c m).player.weapon = g.player.weapon := by
  obtain ⟨s, r⟩ := c
  cases s with
  | Diamonds => exact absurd rfl hcd
  | Hearts =>
    cases hu : g.potion_used_this_turn with
    | true => rw [resolve_hearts_used g _ m rfl hu]
    | false => rw [resolve_hearts_fresh g _ m rfl hu]
  | Clubs =>
    have hd : Game.use_weapon_decision g (Card.mk Suit.Clubs r).monster_value m = false := by
      cases hd : Game.use_weapon_decision g (Card.mk Suit.Clubs r).monster_value m with
      | false => rfl
      | true => exact absurd ⟨Or.inl rfl, hd⟩ hf
    rw [resolve_monster_barehand g _ m (Or.inl rfl) hd]
  | Spades =>
    have hd : Game.use_weapon_decision g (Card.mk Suit.Spades r).monster_value m = false := by
      cases hd : Game.use_weapon_decision g (Card.mk Suit.Spades r).monster_value m with
      | false => rfl
      | true => exact absurd ⟨Or.inr rfl, hd⟩ hf
    rw [resolve_monster_barehand g _ m (Or.inr rfl) hd]

/-- A weapon fight replaces the weapon state by the same weapon with the
card stacked and `last_monster` set to the fought value. -/
theorem resolve_weapon_fight_weapon (g : Game) (c : Card) (m : UseMode) (w : WeaponState)
    (hs : c.suit = Suit.Clubs ∨ c.suit = Suit.Spades)
    (hw : g.player.weapon = some w)
    (hu : g.use_weapon_decision c.monster_value m = true) :
    (g.resolve_card c m).player.weapon =
      some { w with stack := w.stack ++ [c], last_monster := some c.monster_value } := by
  rw [resolve_monster_weapon g c m w hs hw hu]

/-- Invariant behind the monotonicity claim: along any re-equip-free
sequence the weapon-fight values form a non-increasing chain, bounded by
the current `last_monster` when it is set. -/
theorem fought_values_chain (l : List (Card × UseMode)) :
    ∀ (g : Game) (w : WeaponState), g.player.weapon = some w → no_diamond l →
      List.Chain' (fun a b => b ≤ a) (Game.fought_values g l) ∧
      (∀ p, w.last_monster = some p →
        ∀ v ∈ (Game.fought_values g l).head?, v ≤ p) := by
  induction l with
  | nil => intro g w _ _; simp [Game.fought_values]
  | cons pm rest ih =>
    intro g w hw hnd
    obtain ⟨c, m⟩ := pm
    have hnd' : no_diamond rest := fun p hp => hnd p (List.mem_cons_of_mem _ hp)
    have hcd : c.suit ≠ Suit.Diamonds := hnd (c, m) (List.mem_cons_self _ _)
    by_cases hf : (c.suit = Suit.Clubs ∨ c.suit = Suit.Spades)
        ∧ g.use_weapon_decision c.monster_value m = true
    · have hw' := resolve_weapon_fight_weapon g c m w hf.1 hw hf.2
      have ih' := ih (g.resolve_card c m) _ hw' hnd'
      have hhead : ∀ v ∈ (Game.fought_values (g.resolve_card c m) rest).head?,
          v ≤ c.monster_value := ih'.2 c.monster_value rfl
      have hfv : Game.fought_values g ((c, m) :: rest)
          = c.monster_value :: Game.fought_values (g.resolve_card c m) rest := by
        rw [Game.fought_values, if_pos hf]
      constructor
      · rw [hfv, List.chain'_cons']
        exact ⟨hhead, ih'.1⟩
      · intro p hp v hv
        rw [hfv] at hv
        simp only [List.head?_cons, Option.mem_def, Option.some.injEq] at hv
        subst hv
        obtain ⟨w2, hw2, hcu, _⟩ := use_weapon_decision_eq_true g _ m hf.2
        rw [hw] at hw2
        injection hw2 with h2
        subst h2
        exact can_use_on_le _ _ p hcu hp
    · have hwun : (g.resolve_card c m).player.weapon = g.player.weapon :=
        resolve_weapon_unchanged g c m hcd hf
      have hfv : Game.fought_values g ((c, m) :: rest)
          = Game.fought_values (g.resolve_card c m) rest := by
        rw [Game.fought_values, if_neg hf]
      have ih' := ih (g.resolve_card c m) w (by rw [hwun, hw]) hnd'
      rw [hfv]
      exact ih'

/-! ### Potion-flag and HP lemmas -/

/-- Once the per-turn potion flag is set, no resolution clears it. -/
theorem resolve_potion_flag_mono (g : Game) (c : Card) (m : UseMode)
    (h : g.potion_used_this_turn = true) :
    (g.resolve_card c m).potion_used_this_turn = true := by
  obtain ⟨s, r⟩ := c
  cases s with
  | Hearts => rw [resolve_hearts_used g _ m rfl h]
  | Diamonds =>
    cases hw : g.player.weapon with
    | none => rw [resolve_diamonds_none g _ m rfl hw]; exact h
    | some w => rw [resolve_diamonds_some g _ m w rfl hw]; exact h
  | Clubs =>
    by_cases hd : g.use_weapon_decision (Card.mk Suit.Clubs r).monster_value m = true
    · obtain ⟨w, hw, _, _⟩ := use_weapon_decision_eq_true g _ m hd
      rw [resolve_monster_weapon g _ m w (Or.inl rfl) hw hd]
      exact h
    · rw [resolve_monster_barehand g _ m (Or.inl rfl) (by simpa using hd)]
      exact h
  | Spades =>
    by_cases hd : g.use_weapon_decision (Card.mk Suit.Spades r).monster_value m = true
    · obtain ⟨w, hw, _, _⟩ := use_weapon_decision_eq_true g _ m hd
      rw [resolve_monster_weapon g _ m w (Or.inr rfl) hw hd]
      exact h
    · rw [resolve_monster_barehand g _ m (Or.inr rfl) (by simpa using hd)]
      exact h

/-- Any resolution either does not increase HP or sets the potion flag. -/
theorem resolve_hp_or_flag (g : Game) (c : Card) (m : UseMode) :
    (g.resolve_card c m).player.hp ≤ g.player.hp
      ∨ (g.resolve_card c m).potion_used_this_turn = true := by
  obtain ⟨s, r⟩ := c
  cases s with
  | Hearts =>
    cases hu : g.potion_used_this_turn with
    | true => right; rw [resolve_hearts_used g _ m rfl hu]
    | false => right; rw [resolve_hearts_fresh g _ m rfl hu]
  | Diamonds =>
    left
    cases hw : g.player.weapon with
    | none => rw [resolve_diamonds_none g _ m rfl hw]
    | some w => rw [resolve_diamonds_some g _ m w rfl hw]
  | Clubs =>
    left
    by_cases hd : g.use_weapon_decision (Card.mk Suit.Clubs r).monster_value m = true
    · obtain ⟨w, hw, _, _⟩ := use_weapon_decision_eq_true g _ m hd
      rw [resolve_monster_weapon g _ m w (Or.inl rfl) hw hd]
      simp only
      have h0 : (0 : Int) ≤ max ((Card.mk Suit.Clubs r).monster_value - (w.value : Int)) 0 :=
        le_max_right _ _
      omega
    · rw [resolve_monster_barehand g _ m (Or.inl rfl) (by simpa using hd)]
      simp only
      have h0 : (0 : Int) ≤ ((Card.mk Suit.Clubs r).monster_value : Int) :=
        Int.natCast_nonneg _
      omega
  | Spades =>
    left
    by_cases hd : g.use_weapon_decision (Card.mk Suit.Spades r).monster_value m = true
    · obtain ⟨w, hw, _, _⟩ := use_weapon_decision_eq_true g _ m hd
      rw [resolve_monster_weapon g _ m w (Or.inr rfl) hw hd]
      simp only
      have h0 : (0 : Int) ≤ max ((Card.mk Suit.Spades r).monster_value - (w.value : Int)) 0 :=
        le_max_right _ _
      omega
    · rw [resolve_monster_barehand g _ m (Or.inr rfl) (by simpa using hd)]
      simp only
      have h0 : (0 : Int) ≤ ((Card.mk Suit.Spades r).monster_value : Int) :=
        Int.natCast_nonneg _
      omega

/-- With the potion flag already set, no resolution increases HP. -/
theorem resolve_no_increase_of_flag (g : Game) (c : Card) (m : UseMode)
    (h : g.potion_used_this_turn = true) :
    (g.resolve_card c m).player.hp ≤ g.player.hp := by
  obtain ⟨s, r⟩ := c
  cases s with
  | Hearts => rw [resolve_hearts_used g _ m rfl h]
  | Diamonds =>
    cases hw : g.player.weapon with
    | none => rw [resolve_diamonds_none g _ m rfl hw]
    | some w => rw [resolve_diamonds_some g _ m w rfl hw]
  | Clubs =>
    rcases resolve_hp_or_flag g (Card.mk Suit.Clubs r) m with hle | _
    · exact hle
    · by_cases hd : g.use_weapon_decision (Card.mk Suit.Clubs r).monster_value m = true
      · obtain ⟨w, hw, _, _⟩ := use_weapon_decision_eq_true g _ m hd
        rw [resolve_monster_weapon g _ m w (Or.inl rfl) hw hd]
        simp only
        have h0 : (0 : Int) ≤ max ((Card.mk Suit.Clubs r).monster_value - (w.value : Int)) 0 :=
          le_max_right _ _
        omega
      · rw [resolve_monster_barehand g _ m (Or.inl rfl) (by simpa using hd)]
        simp only
        have h0 : (0 : Int) ≤ ((Card.mk Suit.Clubs r).monster_value : Int) :=
          Int.natCast_nonneg _
        omega
  | Spades =>
    rcases resolve_hp_or_flag g (Card.mk Suit.Spades r) m with hle | _
    · exact hle
    · by_cases hd : g.use_weapon_decision (Card.mk Suit.Spades r).monster_value m = true
      · obtain ⟨w, hw, _, _⟩ := use_weapon_decision_eq_true g _ m hd
        rw [resolve_monster_weapon g _ m w (Or.inr rfl) hw hd]
        simp only
        have h0 : (0 : Int) ≤ max ((Card.mk Suit.Spades r).monster_value - (w.value : Int)) 0 :=
          le_max_right _ _
        omega
      · rw [resolve_monster_barehand g _ m (Or.inr rfl) (by simpa using hd)]
        simp only
        have h0 : (0 : Int) ≤ ((Card.mk Suit.Spades r).monster_value : Int) :=
          Int.natCast_nonneg _
        omega

/-- With the potion flag set, no step of a resolution sequence increases HP. -/
theorem hp_increase_count_zero (l : List (Card × UseMode)) :
    ∀ g : Game, g.potion_used_this_turn = true → Game.hp_increase_count g l = 0 := by
  induction l with
  | nil => intro g _; rfl
  | cons pm rest ih =>
    intro g h
    obtain ⟨c, m⟩ := pm
    have h1 : ¬(g.player.hp < (g.resolve_card c m).player.hp) :=
      not_lt.mpr (resolve_no_increase_of_flag g c m h)
    rw [Game.hp_increase_count, if_neg h1, ih _ (resolve_potion_flag_mono g c m h)]

/-- At most one resolution in any sequence strictly increases HP. -/
theorem hp_increase_count_le_one (l : List (Card × UseMode)) :
    ∀ g : Game, Game.hp_increase_count g l ≤ 1 := by
  induction l with
  | nil => intro g; simp [Game.hp_increase_count]
  | cons pm rest ih =>
    intro g
    obtain ⟨c, m⟩ := pm
    by_cases hinc : g.player.hp < (g.resolve_card c m).player.hp
    · have hflag : (g.resolve_card c m).potion_used_this_turn = true := by
        rcases resolve_hp_or_flag g c m with hle | hfl
        · exact absurd hinc (not_lt.mpr hle)
        · exact hfl
      rw [Game.hp_increase_count, if_pos hinc,
          hp_increase_count_zero rest _ hflag]
    · rw [Game.hp_increase_count, if_neg hinc]
      simpa using ih (g.resolve_card c m)

/-! ### Room and refill lemmas -/

theorem visible_zero_fields (g : Game) (hv : g.visible_count = 0) :
    g.room.s0 = none ∧ g.room.s1 = none ∧ g.room.s2 = none ∧ g.room.s3 = none := by
  unfold Game.visible_count Room.toList at hv
  cases h0 : g.room.s0 <;> cases h1 : g.room.s1 <;> cases h2 : g.room.s2 <;>
    cases h3 : g.room.s3 <;> simp_all [List.filter]

theorem room_get_none (r : Room) (h0 : r.s0 = none) (h1 : r.s1 = none)
    (h2 : r.s2 = none) (h3 : r.s3 = none) (i : Fin 4) : r.get i = none := by
  obtain ⟨v, hv⟩ := i
  interval_cases v <;> simp [Room.get, h0, h1, h2, h3]

theorem refill_slot_id (g : Game) (i : Fin 4) (h1 : g.room.get i = none)
    (h2 : g.deck.cards = []) : g.refill_slot i = g := by
  unfold Game.refill_slot Deck.draw
  rw [h1, h2]
  rfl

/-- With deck and room both empty, the refill finds nothing to draw and
ends the run in victory. -/
theorem refill_room_of_empty (g : Game) (hd : g.deck.cards = [])
    (hv : g.visible_count = 0) : g.refill_room = g.finish_victory := by
  obtain ⟨h0, h1, h2, h3⟩ := visible_zero_fields g hv
  have hget : ∀ i, g.room.get i = none := room_get_none g.room h0 h1 h2 h3
  have hslot : ∀ i, g.refill_slot i = g := fun i => refill_slot_id g i (hget i) hd
  unfold Game.refill_room
  simp only [hslot]
  rw [hget g.selected]
  simp [Room.first_occupied, h0, h1, h2, h3, Deck.is_empty, hd, hv]

theorem finish_victory_phase (g : Game) : (g.finish_victory).phase = GamePhase.GameOver := rfl

theorem finish_victory_score (g : Game) :
    (g.finish_victory).score =
      some (if g.player.hp = g.player.max_hp then
              match g.last_card_potion_value with
              | some v => g.player.hp + (v : Int)
              | none => g.player.hp
            else g.player.hp) := rfl

/-- Resolving any non-Hearts card clears the potion side channel. -/
theorem resolve_clears_channel (g : Game) (c : Card) (m : UseMode)
    (hs : c.suit ≠ Suit.Hearts) :
    (g.resolve_card c m).last_card_potion_value = none := by
  obtain ⟨s, r⟩ := c
  cases s with
  | Hearts => exact absurd rfl hs
  | Diamonds =>
    cases hw : g.player.weapon with
    | none => rw [resolve_diamonds_none g _ m rfl hw]
    | some w => rw [resolve_diamonds_some g _ m w rfl hw]
  | Clubs =>
    by_cases hd : g.use_weapon_decision (Card.mk Suit.Clubs r).monster_value m = true
    · obtain ⟨w, hw, _, _⟩ := use_weapon_decision_eq_true g _ m hd
      rw [resolve_monster_weapon g _ m w (Or.inl rfl) hw hd]
    · rw [resolve_monster_barehand g _ m (Or.inl rfl) (by simpa using hd)]
  | Spades =>
    by_cases hd : g.use_weapon_decision (Card.mk Suit.Spades r).monster_value m = true
    · obtain ⟨w, hw, _, _⟩ := use_weapon_decision_eq_true g _ m hd
      rw [resolve_monster_weapon g _ m w (Or.inr rfl) hw hd]
    · rw [resolve_monster_barehand g _ m (Or.inr rfl) (by simpa using hd)]

/-- `resolve_card` never touches the turn machinery, the table, the score
or the maximum HP. -/
theorem resolve_frame (g : Game) (c : Card) (m : UseMode) :
    (g.resolve_card c m).phase = g.phase ∧
    (g.resolve_card c m).room = g.room ∧
    (g.resolve_card c m).deck = g.deck ∧
    (g.resolve_card c m).selected = g.selected ∧
    (g.resolve_card c m).choices_this_turn = g.choices_this_turn ∧
    (g.resolve_card c m).avoided_last_turn = g.avoided_last_turn ∧
    (g.resolve_card c m).room_number = g.room_number ∧
    (g.resolve_card c m).score = g.score ∧
    (g.resolve_card c m).player.max_hp = g.player.max_hp := by
  obtain ⟨s, r⟩ := c
  cases s with
  | Hearts =>
    cases hu : g.potion_used_this_turn with
    | true =>
      rw [resolve_hearts_used g _ m rfl hu]
      exact ⟨rfl, rfl, rfl, rfl, rfl, rfl, rfl, rfl, rfl⟩
    | false =>
      rw [resolve_hearts_fresh g _ m rfl hu]
      exact ⟨rfl, rfl, rfl, rfl, rfl, rfl, rfl, rfl, rfl⟩
  | Diamonds =>
    cases hw : g.player.weapon with
    | none =>
      rw [resolve_diamonds_none g _ m rfl hw]
      exact ⟨rfl, rfl, rfl, rfl, rfl, rfl, rfl, rfl, rfl⟩
    | some w =>
      rw [resolve_diamonds_some g _ m w rfl hw]
      exact ⟨rfl, rfl, rfl, rfl, rfl, rfl, rfl, rfl, rfl⟩
  | Clubs =>
    by_cases hd : g.use_weapon_decision (Card.mk Suit.Clubs r).monster_value m = true
    · obtain ⟨w, hw, _, _⟩ := use_weapon_decision_eq_true g _ m hd
      rw [resolve_monster_weapon g _ m w (Or.inl rfl) hw hd]
      exact ⟨rfl, rfl, rfl, rfl, rfl, rfl, rfl, rfl, rfl⟩
    · rw [resolve_monster_barehand g _ m (Or.inl rfl) (by simpa using hd)]
      exact ⟨rfl, rfl, rfl, rfl, rfl, rfl, rfl, rfl, rfl⟩
  | Spades =>
    by_cases hd : g.use_weapon_decision (Card.mk Suit.Spades r).monster_value m = true
    · obtain ⟨w, hw, _, _⟩ := use_weapon_decision_eq_true g _ m hd
      rw [resolve_monster_weapon g _ m w (Or.inr rfl) hw hd]
      exact ⟨rfl, rfl, rfl, rfl, rfl, rfl, rfl, rfl, rfl⟩
    · rw [resolve_monster_barehand g _ m (Or.inr rfl) (by simpa using hd)]
      exact ⟨rfl, rfl, rfl, rfl, rfl, rfl, rfl, rfl, rfl⟩

theorem room_get_0 (r : Room) : r.get 0 = r.s0 := rfl

theorem room_get_1 (r : Room) : r.get 1 = r.s1 := rfl

theorem room_get_2 (r : Room) : r.get 2 = r.s2 := rfl

theorem room_get_3 (r : Room) : r.get 3 = r.s3 := rfl

theorem room_set_0 (r : Room) (c : Option Card) : r.set 0 c = { r with s0 := c } := rfl

theorem room_set_1 (r : Room) (c : Option Card) : r.set 1 c = { r with s1 := c } := rfl

theorem room_set_2 (r : Room) (c : Option Card) : r.set 2 c = { r with s2 := c } := rfl

theorem room_set_3 (r : Room) (c : Option Card) : r.set 3 c = { r with s3 := c } := rfl

/-- A refill step only touches the deck and the room. -/
theorem refill_slot_shape (g : Game) (i : Fin 4) :
    ∃ d r, g.refill_slot i = { g with deck := d, room := r } := by
  unfold Game.refill_slot Deck.draw
  cases h : g.room.get i with
  | some c => exact ⟨g.deck, g.room, rfl⟩
  | none =>
    cases hg : g.deck.cards.getLast? with
    | some c => exact ⟨⟨g.deck.cards.dropLast⟩, g.room.set i (some c), rfl⟩
    | none => exact ⟨g.deck, g.room, rfl⟩

/-- `finish_victory` leaves the turn counters, the table and the player
untouched. -/
theorem finish_victory_frame (g : Game) :
    (g.finish_victory).avoided_last_turn = g.avoided_last_turn ∧
    (g.finish_victory).potion_used_this_turn = g.potion_used_this_turn ∧
    (g.finish_victory).choices_this_turn = g.choices_this_turn ∧
    (g.finish_victory).room_number = g.room_number ∧
    (g.finish_victory).player = g.player ∧
    (g.finish_victory).room = g.room ∧
    (g.finish_victory).deck = g.deck ∧
    (g.finish_victory).history = g.history ∧
    (g.finish_victory).discard = g.discard :=
  ⟨rfl, rfl, rfl, rfl, rfl, rfl, rfl, rfl, rfl⟩

/-- `refill_room` either stays in play, changing only deck, room and
selection, or ends in `finish_victory` of such a state. -/
theorem refill_room_shape (g : Game) :
    (∃ d r s, g.refill_room = { g with deck := d, room := r, selected := s }) ∨
    (∃ d r s, g.refill_room
        = Game.finish_victory { g with deck := d, room := r, selected := s }) := by
  unfold Game.refill_room
  obtain ⟨d1, r1, h1⟩ := refill_slot_shape g 0
  rw [h1]
  dsimp only
  obtain ⟨d2, r2, h2⟩ := refill_slot_shape { g with deck := d1, room := r1 } 1
  rw [h2]
  dsimp only
  obtain ⟨d3, r3, h3⟩ := refill_slot_shape { g with deck := d2, room := r2 } 2
  rw [h3]
  dsimp only
  obtain ⟨d4, r4, h4⟩ := refill_slot_shape { g with deck := d3, room := r3 } 3
  rw [h4]
  dsimp only
  by_cases hsel : (({ g with deck := d4, room := r4 } : Game).room.get
      ({ g with deck := d4, room := r4 } : Game).selected).isNone
  · rw [if_pos hsel]
    cases hfo : ({ g with deck := d4, room := r4 } : Game).room.first_occupied with
    | some idx =>
      split
      · right; exact ⟨d4, r4, idx, rfl⟩
      · left; exact ⟨d4, r4, idx, rfl⟩
    | none =>
      split
      · right; exact ⟨d4, r4, g.selected, rfl⟩
      · left; exact ⟨d4, r4, g.selected, rfl⟩
  · rw [if_neg hsel]
    split
    · right; exact ⟨d4, r4, g.selected, rfl⟩
    · left; exact ⟨d4, r4, g.selected, rfl⟩

/-- `refill_room` never touches the per-turn flags, the counter, the
player, the history or the discard pile. -/
theorem refill_room_flags (g : Game) :
    (g.refill_room).avoided_last_turn = g.avoided_last_turn ∧
    (g.refill_room).potion_used_this_turn = g.potion_used_this_turn ∧
    (g.refill_room).choices_this_turn = g.choices_this_turn ∧
    (g.refill_room).room_number = g.room_number ∧
    (g.refill_room).player = g.player ∧
    (g.refill_room).history = g.history ∧
    (g.refill_room).discard = g.discard := by
  rcases refill_room_shape g with ⟨d, r, s, h⟩ | ⟨d, r, s, h⟩ <;> rw [h]
  · exact ⟨rfl, rfl, rfl, rfl, rfl, rfl, rfl⟩
  · exact ⟨rfl, rfl, rfl, rfl, rfl, rfl, rfl⟩

theorem refill_slot_0_some (g : Game) (c : Card) (h : g.room.s0 = some c) :
    g.refill_slot 0 = g := by
  unfold Game.refill_slot
  rw [room_get_0, h]

theorem refill_slot_s0_eq (g : Game) (i : Fin 4) (hne : i ≠ 0) :
    (g.refill_slot i).room.s0 = g.room.s0 := by
  obtain ⟨v, hv⟩ := i
  unfold Game.refill_slot Deck.draw
  interval_cases v
  · exact absurd rfl hne
  · cases hg : g.room.get ⟨1, hv⟩ with
    | some c => rfl
    | none =>
      cases hl : g.deck.cards.getLast? with
      | some c => rfl
      | none => rfl
  · cases hg : g.room.get ⟨2, hv⟩ with
    | some c => rfl
    | none =>
      cases hl : g.deck.cards.getLast? with
      | some c => rfl
      | none => rfl
  · cases hg : g.room.get ⟨3, hv⟩ with
    | some c => rfl
    | none =>
      cases hl : g.deck.cards.getLast? with
      | some c => rfl
      | none => rfl

theorem refill_slot0_fills (g : Game) (h0 : g.room.s0 = none)
    (hd : g.deck.cards ≠ []) : ((g.refill_slot 0).room.s0).isSome = true := by
  unfold Game.refill_slot Deck.draw
  rw [room_get_0, h0]
  cases hl : g.deck.cards.getLast? with
  | some c => simp [room_set_0]
  | none => exact absurd (by simpa using hl) hd

/-- If slot 0 is occupied, or empty with a non-empty deck, the refill does
not end the run: it only changes deck, room and selection, and leaves slot
0 occupied. -/
theorem refill_room_no_victory (g : Game)
    (h : g.room.s0.isSome = true ∨ (g.room.s0 = none ∧ g.deck.cards ≠ [])) :
    ∃ d r s, g.refill_room = { g with deck := d, room := r, selected := s }
      ∧ r.s0.isSome = true := by
  have hs0 : ((g.refill_slot 0).room.s0).isSome = true := by
    rcases h with hsome | ⟨hnone, hne⟩
    · obtain ⟨c, hc⟩ := Option.isSome_iff_exists.mp hsome
      rw [refill_slot_0_some g c hc]
      exact hsome
    · exact refill_slot0_fills g hnone hne
  have hs1 := refill_slot_s0_eq (g.refill_slot 0) 1 (by decide)
  have hs2 := refill_slot_s0_eq ((g.refill_slot 0).refill_slot 1) 2 (by decide)
  have hs3 := refill_slot_s0_eq (((g.refill_slot 0).refill_slot 1).refill_slot 2) 3
    (by decide)
  have hchain :
      (((((g.refill_slot 0).refill_slot 1).refill_slot 2).refill_slot 3).room.s0).isSome
        = true := by
    rw [hs3, hs2, hs1]; exact hs0
  unfold Game.refill_room
  obtain ⟨d1, r1, h1⟩ := refill_slot_shape g 0
  rw [h1] at hchain ⊢
  try dsimp only
  try dsimp only at hchain
  obtain ⟨d2, r2, h2⟩ := refill_slot_shape { g with deck := d1, room := r1 } 1
  rw [h2] at hchain ⊢
  try dsimp only
  try dsimp only at hchain
  obtain ⟨d3, r3, h3⟩ := refill_slot_shape { g with deck := d2, room := r2 } 2
  rw [h3] at hchain ⊢
  try dsimp only
  try dsimp only at hchain
  obtain ⟨d4, r4, h4⟩ := refill_slot_shape { g with deck := d3, room := r3 } 3
  rw [h4] at hchain ⊢
  try dsimp only
  try dsimp only at hchain
  have hvc : ∀ gx : Game, gx.room = r4 → ¬(gx.visible_count = 0) := by
    intro gx hgx hv
    have h0 := (visible_zero_fields gx hv).1
    rw [hgx] at h0
    rw [h0] at hchain
    simp at hchain
  by_cases hsel : (({ g with deck := d4, room := r4 } : Game).room.get
      ({ g with deck := d4, room := r4 } : Game).selected).isNone
  · rw [if_pos hsel]
    cases hfo : ({ g with deck := d4, room := r4 } : Game).room.first_occupied with
    | some idx =>
      dsimp only
      rw [if_neg (by
        intro hcond
        exact hvc { g with deck := d4, room := r4, selected := idx } rfl
          (by simpa using (Bool.and_eq_true_iff.mp hcond).2))]
      exact ⟨d4, r4, idx, rfl, hchain⟩
    | none =>
      dsimp only
      rw [if_neg (by
        intro hcond
        exact hvc { g with deck := d4, room := r4 } rfl
          (by simpa using (Bool.and_eq_true_iff.mp hcond).2))]
      exact ⟨d4, r4, g.selected, rfl, hchain⟩
  · rw [if_neg hsel]
    rw [if_neg (by
      intro hcond
      exact hvc { g with deck := d4, room := r4 } rfl
        (by simpa using (Bool.and_eq_true_iff.mp hcond).2))]
    exact ⟨d4, r4, g.selected, rfl, hchain⟩

/-! ### Turn-end, avoid and invariant lemmas -/

theorem scoop_slot_shape (g : Game) (i : Fin 4) :
    ∃ d r, g.scoop_slot i = { g with deck := d, room := r } := by
  unfold Game.scoop_slot
  cases h : g.room.get i with
  | some c => exact ⟨g.deck.push_bottom c, g.room.set i none, rfl⟩
  | none => exact ⟨g.deck, g.room, rfl⟩

/-- The observable effects of `end_turn`: per-turn flags reset, player and
discard untouched, and the room counter advanced exactly when the game is
still Running after the refill. -/
theorem end_turn_effects (g : Game) :
    (g.end_turn).avoided_last_turn = false ∧
    (g.end_turn).potion_used_this_turn = false ∧
    (g.end_turn).choices_this_turn = 0 ∧
    (g.end_turn).player = g.player ∧
    (g.end_turn).discard = g.discard ∧
    ((g.end_turn).phase = GamePhase.Running →
       (g.end_turn).room_number = g.room_number + 1) := by
  unfold Game.end_turn
  dsimp only
  have hf := refill_room_flags
    { g with avoided_last_turn := false, potion_used_this_turn := false,
             choices_this_turn := 0 }
  split
  · refine ⟨?_, ?_, ?_, ?_, ?_, fun _ => ?_⟩ <;> dsimp only
    · rw [hf.1]
    · rw [hf.2.1]
    · rw [hf.2.2.1]
    · rw [hf.2.2.2.2.1]
    · rw [hf.2.2.2.2.2.2]
    · rw [hf.2.2.2.1]
  · next hrun =>
    refine ⟨?_, ?_, ?_, ?_, ?_, fun hc => absurd hc hrun⟩
    · rw [hf.1]
    · rw [hf.2.1]
    · rw [hf.2.2.1]
    · rw [hf.2.2.2.2.1]
    · rw [hf.2.2.2.2.2.2]

theorem avoid_room_player (g : Game) : (g.avoid_room).player = g.player := by
  unfold Game.avoid_room
  split
  · rfl
  split
  · rfl
  split
  · rfl
  obtain ⟨d1, r1, h1⟩ := scoop_slot_shape g 0
  rw [h1]
  dsimp only
  obtain ⟨d2, r2, h2⟩ := scoop_slot_shape { g with deck := d1, room := r1 } 1
  rw [h2]
  dsimp only
  obtain ⟨d3, r3, h3⟩ := scoop_slot_shape { g with deck := d2, room := r2 } 2
  rw [h3]
  dsimp only
  obtain ⟨d4, r4, h4⟩ := scoop_slot_shape { g with deck := d3, room := r3 } 3
  rw [h4]
  dsimp only
  split <;> (try dsimp only) <;> rw [(refill_room_flags _).2.2.2.2.1]

/-- `resolve_card` preserves `hp ≤ max_hp`: healing clamps to `max_hp` and
everything else only lowers or keeps HP. -/
theorem resolve_hp_le_max (g : Game) (c : Card) (m : UseMode)
    (h : g.player.hp ≤ g.player.max_hp) :
    (g.resolve_card c m).player.hp ≤ (g.resolve_card c m).player.max_hp := by
  obtain ⟨s, r⟩ := c
  cases s with
  | Hearts =>
    cases hu : g.potion_used_this_turn with
    | true => rw [resolve_hearts_used g _ m rfl hu]; exact h
    | false => rw [resolve_hearts_fresh g _ m rfl hu]; exact min_le_right _ _
  | Diamonds =>
    cases hw : g.player.weapon with
    | none => rw [resolve_diamonds_none g _ m rfl hw]; exact h
    | some w => rw [resolve_diamonds_some g _ m w rfl hw]; exact h
  | Clubs =>
    by_cases hd : g.use_weapon_decision (Card.mk Suit.Clubs r).monster_value m = true
    · obtain ⟨w, hw, _, _⟩ := use_weapon_decision_eq_true g _ m hd
      rw [resolve_monster_weapon g _ m w (Or.inl rfl) hw hd]
      dsimp only
      have h0 : (0 : Int) ≤ max ((Card.mk Suit.Clubs r).monster_value - (w.value : Int)) 0 :=
        le_max_right _ _
      omega
    · rw [resolve_monster_barehand g _ m (Or.inl rfl) (by simpa using hd)]
      dsimp only
      have h0 : (0 : Int) ≤ ((Card.mk Suit.Clubs r).monster_value : Int) :=
        Int.natCast_nonneg _
      omega
  | Spades =>
    by_cases hd : g.use_weapon_decision (Card.mk Suit.Spades r).monster_value m = true
    · obtain ⟨w, hw, _, _⟩ := use_weapon_decision_eq_true g _ m hd
      rw [resolve_monster_weapon g _ m w (Or.inr rfl) hw hd]
      dsimp only
      have h0 : (0 : Int) ≤ max ((Card.mk Suit.Spades r).monster_value - (w.value : Int)) 0 :=
        le_max_right _ _
      omega
    · rw [resolve_monster_barehand g _ m (Or.inr rfl) (by simpa using hd)]
      dsimp only
      have h0 : (0 : Int) ≤ ((Card.mk Suit.Spades r).monster_value : Int) :=
        Int.natCast_nonneg _
      omega

/-- A take whose resolution leaves HP > 0 counts the pick and then ends
the turn exactly when at most one card is visible or 3 picks are made. -/
theorem take_selected_alive (g : Game) (m : UseMode) (card : Card)
    (hph : g.phase = GamePhase.Running)
    (hnf : ¬(3 ≤ g.choices_this_turn ∧ 2 ≤ g.visible_count))
    (hc : g.room.get g.selected = some card)
    (halive : 0 < (Game.resolve_card { g with room := g.room.set g.selected none }
        card m).player.hp) :
    g.take_selected m =
      (let gr := Game.resolve_card { g with room := g.room.set g.selected none } card m
       let g3 : Game := { gr with choices_this_turn := gr.choices_this_turn + 1 }
       if g3.visible_count ≤ 1 then g3.end_turn
       else if 3 ≤ g3.choices_this_turn then g3.end_turn
       else g3) := by
  unfold Game.take_selected
  rw [if_neg (by simp [hph]), if_neg hnf, hc]
  dsimp only
  rw [if_neg (by omega)]

theorem take_selected_inv (g : Game) (m : UseMode)
    (h : g.player.hp ≤ g.player.max_hp) :
    (g.take_selected m).player.hp ≤ (g.take_selected m).player.max_hp := by
  unfold Game.take_selected
  split
  · exact h
  split
  · rw [(end_turn_effects _).2.2.2.1]
    exact h
  cases hc : g.room.get g.selected with
  | none => exact h
  | some card =>
    try dsimp only
    have hinv2 := resolve_hp_le_max { g with room := g.room.set g.selected none } card m h
    split
    · exact hinv2
    split
    · rw [(end_turn_effects _).2.2.2.1]
      exact hinv2
    split
    · rw [(end_turn_effects _).2.2.2.1]
      exact hinv2
    · exact hinv2

theorem new_run_player (g : Game) (d : Deck) : (g.new_run d).player = Player.new := by
  unfold Game.new_run
  dsimp only
  rw [(refill_room_flags _).2.2.2.2.1]

theorem apply_op_inv (g : Game) (o : Op) (h : g.player.hp ≤ g.player.max_hp) :
    (g.apply_op o).player.hp ≤ (g.apply_op o).player.max_hp := by
  cases o with
  | take m => exact take_selected_inv g m h
  | avoid =>
    show (g.avoid_room).player.hp ≤ (g.avoid_room).player.max_hp
    rw [avoid_room_player]
    exact h
  | move dx =>
    show (g.move_selection dx).player.hp ≤ (g.move_selection dx).player.max_hp
    unfold Game.move_selection
    split <;> exact h
  | newRun d =>
    show (Game.new_run g d).player.hp ≤ (Game.new_run g d).player.max_hp
    rw [new_run_player]
    decide
  | toggleHelp => exact h
  | tick => exact h
  | menuUp =>
    show (g.select_menu_up).player.hp ≤ (g.select_menu_up).player.max_hp
    unfold Game.select_menu_up
    split <;> exact h
  | menuDown =>
    show (g.select_menu_down).player.hp ≤ (g.select_menu_down).player.max_hp
    unfold Game.select_menu_down
    split <;> exact h
  | menuActivate =>
    show (g.menu_activate).player.hp ≤ (g.menu_activate).player.max_hp
    unfold Game.menu_activate
    split <;> exact h
  | nameChar c =>
    show (g.name_input_char c).player.hp ≤ (g.name_input_char c).player.max_hp
    unfold Game.name_input_char
    split <;> exact h
  | nameBackspace => exact h
  | nameSubmit d =>
    show (g.name_input_submit d).player.hp ≤ (g.name_input_submit d).player.max_hp
    unfold Game.name_input_submit
    dsimp only
    split <;> (rw [new_run_player]; decide)

theorem apply_ops_inv (l : List Op) :
    ∀ g : Game, g.player.hp ≤ g.player.max_hp →
      (g.apply_ops l).player.hp ≤ (g.apply_ops l).player.max_hp := by
  induction l with
  | nil => intro g h; exact h
  | cons o rest ih => intro g h; exact ih (g.apply_op o) (apply_op_inv g o h)

/-! ### Claim theorems -/

/-- C8: `Deck::scoundrel_deck` always yields exactly 44 cards — 13 Clubs
and 13 Spades with every rank 1–13 present, 9 Diamonds (ranks 2–10) and 9
Hearts (ranks 2–10) — with no duplicate card and no red face card or red
ace (every red card has rank 2–10). -/
theorem C8_deck_composition :
    Deck.scoundrel_deck.cards.length = 44 ∧
    (Deck.scoundrel_deck.cards.filter fun c => decide (c.suit = Suit.Clubs)).length = 13 ∧
    (Deck.scoundrel_deck.cards.filter fun c => decide (c.suit = Suit.Spades)).length = 13 ∧
    (Deck.scoundrel_deck.cards.filter fun c => decide (c.suit = Suit.Diamonds)).length = 9 ∧
    (Deck.scoundrel_deck.cards.filter fun c => decide (c.suit = Suit.Hearts)).length = 9 ∧
    (∀ v ∈ Finset.Icc 1 13, Card.mk Suit.Clubs ⟨v⟩ ∈ Deck.scoundrel_deck.cards
      ∧ Card.mk Suit.Spades ⟨v⟩ ∈ Deck.scoundrel_deck.cards) ∧
    (∀ v ∈ Finset.Icc 2 10, Card.mk Suit.Diamonds ⟨v⟩ ∈ Deck.scoundrel_deck.cards
      ∧ Card.mk Suit.Hearts ⟨v⟩ ∈ Deck.scoundrel_deck.cards) ∧
    (∀ c ∈ Deck.scoundrel_deck.cards,
      (c.suit = Suit.Diamonds ∨ c.suit = Suit.Hearts) → 2 ≤ c.rank.val ∧ c.rank.val ≤ 10) ∧
    (∀ c ∈ Deck.scoundrel_deck.cards, 1 ≤ c.rank.val ∧ c.rank.val ≤ 13) ∧
    Deck.scoundrel_deck.cards.Nodup := by decide

/-- C2: `can_use_on(v)` holds iff `last_monster` is `None` or
`v ≤ last_monster`; every weapon fight sets `last_monster` to the fought
monster's value (whether or not damage was taken, since the update is
unconditional); and along any sequence of resolutions with no Diamonds
card (one weapon, never re-equipped) the weapon-fight values are
non-increasing, and are bounded by the initial `last_monster` once set. -/
theorem C2_weapon_monotonicity :
    (∀ (w : WeaponState) (v : Nat),
       w.can_use_on v = true ↔
         (w.last_monster = none ∨ ∃ p, w.last_monster = some p ∧ v ≤ p)) ∧
    (∀ (g : Game) (c : Card) (m : UseMode) (w : WeaponState),
       (c.suit = Suit.Clubs ∨ c.suit = Suit.Spades) →
       g.player.weapon = some w →
       g.use_weapon_decision c.monster_value m = true →
       (g.resolve_card c m).player.weapon =
         some { w with stack := w.stack ++ [c],
                       last_monster := some c.monster_value }) ∧
    (∀ (g : Game) (w : WeaponState) (l : List (Card × UseMode)),
       g.player.weapon = some w → no_diamond l →
       List.Chain' (fun a b => b ≤ a) (Game.fought_values g l) ∧
       (∀ p, w.last_monster = some p →
         ∀ v ∈ (Game.fought_values g l).head?, v ≤ p)) := by
  refine ⟨?_, ?_, ?_⟩
  · intro w v
    cases h : w.last_monster <;> simp [WeaponState.can_use_on, h]
  · intro g c m w hs hw hu
    exact resolve_weapon_fight_weapon g c m w hs hw hu
  · intro g w l hw hnd
    exact fought_values_chain l g w hw hnd

/-- Witness for C2: a weapon of power 5 with `last_monster = 8`, fighting a
7-spade then a 5-club; the fights record 7 then 5, a non-increasing chain
bounded by 8, and after the first fight `last_monster` is 7. -/
theorem C2_weapon_monotonicity_witness :
    (let w0 : WeaponState := ⟨5, some 8, []⟩
     let g0 : Game := { base_game with player := { Player.new with weapon := some w0 } }
     (g0.resolve_card (spade 7) UseMode.Default).player.weapon =
       some { w0 with stack := [spade 7], last_monster := some 7 } ∧
     WeaponState.can_use_on ⟨5, some 8, []⟩ 7 = true ∧
     List.Chain' (fun a b => b ≤ a)
       (g0.fought_values [(spade 7, UseMode.Default), (club 5, UseMode.Default)]) ∧
     ∀ v ∈ (g0.fought_values
         [(spade 7, UseMode.Default), (club 5, UseMode.Default)]).head?, v ≤ 8) := by
  intro w0 g0
  refine ⟨?_, ?_, ?_, ?_⟩
  · exact C2_weapon_monotonicity.2.1 g0 (spade 7) UseMode.Default w0
      (Or.inr (by decide)) rfl (by decide)
  · exact (C2_weapon_monotonicity.1 ⟨5, some 8, []⟩ 7).mpr (Or.inr ⟨8, rfl, by decide⟩)
  · exact (C2_weapon_monotonicity.2.2 g0 w0
      [(spade 7, UseMode.Default), (club 5, UseMode.Default)] rfl
      (by unfold no_diamond; decide)).1
  · exact (C2_weapon_monotonicity.2.2 g0 w0
      [(spade 7, UseMode.Default), (club 5, UseMode.Default)] rfl
      (by unfold no_diamond; decide)).2 8 rfl

/-- C5: resolving a Hearts card with no potion yet used this turn sets HP
to min(current HP + card value, max HP) and marks the potion used; any
further Hearts card the same turn leaves HP unchanged and is logged as
discarded; in every case the Hearts card is appended to the discard pile;
and across any uninterrupted sequence of resolutions at most one step
strictly increases HP. -/
theorem C5_potion_rule :
    (∀ (g : Game) (c : Card) (m : UseMode), c.suit = Suit.Hearts →
       g.potion_used_this_turn = false →
       (g.resolve_card c m).player.hp
           = min (g.player.hp + (c.monster_value : Int)) g.player.max_hp ∧
       (g.resolve_card c m).potion_used_this_turn = true ∧
       (g.resolve_card c m).discard = g.discard ++ [c]) ∧
    (∀ (g : Game) (c : Card) (m : UseMode), c.suit = Suit.Hearts →
       g.potion_used_this_turn = true →
       (g.resolve_card c m).player.hp = g.player.hp ∧
       (g.resolve_card c m).log = g.log ++
         ["You already used a potion this turn; this one is discarded."] ∧
       (g.resolve_card c m).history
           = g.history ++ [GameEvent.PotionDiscarded c.monster_value] ∧
       (g.resolve_card c m).discard = g.discard ++ [c]) ∧
    (∀ (g : Game) (l : List (Card × UseMode)), Game.hp_increase_count g l ≤ 1) := by
  refine ⟨?_, ?_, ?_⟩
  · intro g c m hs hu
    rw [resolve_hearts_fresh g c m hs hu]
    exact ⟨rfl, rfl, rfl⟩
  · intro g c m hs hu
    rw [resolve_hearts_used g c m hs hu]
    exact ⟨rfl, rfl, rfl, rfl⟩
  · intro g l
    exact hp_increase_count_le_one l g

/-- Witness for C5: at HP 10 a first 6-potion heals to 16 and a 6-potion
with the flag already set leaves HP at 10; two potions in a row increase HP
at most once. -/
theorem C5_potion_rule_witness :
    (Game.resolve_card { base_game with player := ⟨10, 20, none⟩ }
        (heart 6) UseMode.Default).player.hp = 16 ∧
    (Game.resolve_card
        { base_game with player := ⟨10, 20, none⟩, potion_used_this_turn := true }
        (heart 6) UseMode.Default).player.hp = 10 ∧
    Game.hp_increase_count base_game
      [(heart 6, UseMode.Default), (heart 9, UseMode.Default)] ≤ 1 := by
  refine ⟨?_, ?_, ?_⟩
  · have h := C5_potion_rule.1 { base_game with player := ⟨10, 20, none⟩ }
      (heart 6) UseMode.Default rfl rfl
    rw [h.1]
    decide
  · have h := C5_potion_rule.2.1
      { base_game with player := ⟨10, 20, none⟩, potion_used_this_turn := true }
      (heart 6) UseMode.Default rfl rfl
    rw [h.1]
  · exact C5_potion_rule.2.2 base_game _

/-- C10: a wasted potion (a Hearts card resolved while the potion flag is
already set) leaves `last_card_potion_value` unchanged — neither cleared
nor overwritten with the wasted card's value — and leaves the player state
unchanged, so it cannot disturb the max-HP victory bonus recorded by an
earlier successful potion. -/
theorem C10_wasted_potion_frame (g : Game) (c : Card) (m : UseMode)
    (hs : c.suit = Suit.Hearts) (hu : g.potion_used_this_turn = true) :
    (g.resolve_card c m).last_card_potion_value = g.last_card_potion_value ∧
    (g.resolve_card c m).player = g.player := by
  rw [resolve_hearts_used g c m hs hu]
  exact ⟨rfl, rfl⟩

/-- Witness for C10: with the side channel holding 6 and the flag set, a
wasted 3-potion keeps the side channel at 6, and the subsequent victory
refill still scores 20 + 6 = 26. -/
theorem C10_wasted_potion_frame_witness :
    (Game.resolve_card
        { base_game with potion_used_this_turn := true,
                         last_card_potion_value := some 6 }
        (heart 3) UseMode.Default).last_card_potion_value = some 6 ∧
    ((Game.resolve_card
        { base_game with potion_used_this_turn := true,
                         last_card_potion_value := some 6 }
        (heart 3) UseMode.Default).refill_room).score = some 26 := by
  refine ⟨?_, ?_⟩
  · exact (C10_wasted_potion_frame
      { base_game with potion_used_this_turn := true,
                       last_card_potion_value := some 6 }
      (heart 3) UseMode.Default rfl rfl).1
  · decide

/-- C3: when the deck is empty and no room card is visible — the refill
situation that detects victory — the game moves to GameOver and the score
is HP plus the side-channel potion value exactly when HP equals max HP and
the side channel is set, and plain HP otherwise; and resolving any
non-Hearts card clears the side channel. -/
theorem C3_victory_scoring :
    (∀ g : Game, g.deck.cards = [] → g.visible_count = 0 →
       (g.refill_room).phase = GamePhase.GameOver ∧
       (g.refill_room).score =
         some (if g.player.hp = g.player.max_hp then
                 match g.last_card_potion_value with
                 | some v => g.player.hp + (v : Int)
                 | none => g.player.hp
               else g.player.hp)) ∧
    (∀ (g : Game) (c : Card) (m : UseMode), c.suit ≠ Suit.Hearts →
       (g.resolve_card c m).last_card_potion_value = none) := by
  refine ⟨?_, resolve_clears_channel⟩
  intro g hd hv
  rw [refill_room_of_empty g hd hv]
  exact ⟨finish_victory_phase g, finish_victory_score g⟩

/-- Witness for C3: at max HP 20 with side channel 6 the empty-deck refill
scores 26; at HP 18 under the same circumstances it scores 18; resolving a
5-club clears the side channel. -/
theorem C3_victory_scoring_witness :
    (Game.refill_room { base_game with last_card_potion_value := some 6 }).score
        = some 26 ∧
    (Game.refill_room { base_game with player := ⟨18, 20, none⟩, last_card_potion_value := some 6 }).score = some 18 ∧
    (Game.resolve_card { base_game with last_card_potion_value := some 6 }
        (club 5) UseMode.Default).last_card_potion_value = none := by
  refine ⟨?_, ?_, ?_⟩
  · rw [(C3_victory_scoring.1 { base_game with last_card_potion_value := some 6 }
      rfl rfl).2]
    decide
  · rw [(C3_victory_scoring.1 { base_game with player := ⟨18, 20, none⟩, last_card_potion_value := some 6 } rfl rfl).2]
    decide
  · exact C3_victory_scoring.2 { base_game with last_card_potion_value := some 6 }
      (club 5) UseMode.Default (by decide)

theorem finish_death_phase (g : Game) : (g.finish_death).phase = GamePhase.GameOver := rfl

theorem finish_death_score (g : Game) :
    (g.finish_death).score =
      some (g.player.hp -
        (((g.deck.cards.filter Card.is_monster).map fun c => (c.monster_value : Int)).sum
          + ((g.room.toList.reduceOption.filter Card.is_monster).map
              fun c => (c.monster_value : Int)).sum)) := rfl

theorem finish_death_choices (g : Game) :
    (g.finish_death).choices_this_turn = g.choices_this_turn := rfl

/-- A take whose resolution leaves HP ≤ 0 goes straight to `finish_death`. -/
theorem take_selected_death (g : Game) (m : UseMode) (card : Card)
    (hph : g.phase = GamePhase.Running)
    (hnf : ¬(3 ≤ g.choices_this_turn ∧ 2 ≤ g.visible_count))
    (hc : g.room.get g.selected = some card)
    (hdead : (Game.resolve_card { g with room := g.room.set g.selected none }
        card m).player.hp ≤ 0) :
    g.take_selected m =
      Game.finish_death
        (Game.resolve_card { g with room := g.room.set g.selected none } card m) := by
  unfold Game.take_selected
  rw [if_neg (by simp [hph]), if_neg hnf, hc]
  simp only [hdead, if_pos]

/-- C4: when a take's resolution leaves HP ≤ 0 the run terminates in death
immediately — the result is exactly `finish_death` of the resolved state,
phase GameOver, the pick counter untouched — and the score is the final HP
minus the summed monster values remaining in the deck and the room. -/
theorem C4_death_scoring (g : Game) (m : UseMode) (card : Card)
    (hph : g.phase = GamePhase.Running)
    (hnf : ¬(3 ≤ g.choices_this_turn ∧ 2 ≤ g.visible_count))
    (hc : g.room.get g.selected = some card)
    (hdead : (Game.resolve_card { g with room := g.room.set g.selected none }
        card m).player.hp ≤ 0) :
    (let gr := Game.resolve_card { g with room := g.room.set g.selected none } card m
     g.take_selected m = gr.finish_death ∧
     (g.take_selected m).phase = GamePhase.GameOver ∧
     (g.take_selected m).score =
       some (gr.player.hp -
         (((gr.deck.cards.filter Card.is_monster).map
             fun c => (c.monster_value : Int)).sum
           + ((gr.room.toList.reduceOption.filter Card.is_monster).map
               fun c => (c.monster_value : Int)).sum)) ∧
     (g.take_selected m).choices_this_turn = g.choices_this_turn) := by
  intro gr
  have hT := take_selected_death g m card hph hnf hc hdead
  refine ⟨hT, ?_, ?_, ?_⟩
  · rw [hT]; exact finish_death_phase gr
  · rw [hT]; exact finish_death_score gr
  · rw [hT, finish_death_choices gr]
    exact (resolve_frame { g with room := g.room.set g.selected none } card m).2.2.2.2.1

/-- Witness for C4: HP 4, bare-handed fight against a 7-spade with a 7-club
left in the deck and a 5-club left in the room: HP drops to -3 and the
score is -3 - 7 - 5 = -15. -/
theorem C4_death_scoring_witness :
    (Game.take_selected
        { base_game with player := ⟨4, 20, none⟩, deck := ⟨[club 7]⟩,
                         room := ⟨some (spade 7), some (club 5), none, none⟩ }
        UseMode.Default).score = some (-15) ∧
    (Game.take_selected
        { base_game with player := ⟨4, 20, none⟩, deck := ⟨[club 7]⟩,
                         room := ⟨some (spade 7), some (club 5), none, none⟩ }
        UseMode.Default).phase = GamePhase.GameOver := by
  have h := C4_death_scoring
    { base_game with player := ⟨4, 20, none⟩, deck := ⟨[club 7]⟩,
                     room := ⟨some (spade 7), some (club 5), none, none⟩ }
    UseMode.Default (spade 7) rfl (by decide) (by decide) (by decide)
  refine ⟨?_, h.2.1⟩
  rw [h.2.2.1]
  decide

theorem score_desc_trans (a b c : ScoreEntry) :
    score_desc a b → score_desc b c → score_desc a c := by
  simp only [score_desc, decide_eq_true_eq]
  omega

theorem score_desc_total (a b : ScoreEntry) : score_desc a b || score_desc b a := by
  simp only [score_desc]
  rcases le_total a.score b.score with h | h <;> simp [h]

/-- C7: submitting a terminal score appends a `{name, score, won, ts}`
entry, re-sorts the leaderboard descending by score (a stable sort, so a
permutation of old ++ new that is pairwise non-increasing), and the
recorded 0-based position — displayed 1-based as `pos + 1` — is the first
position in the sorted list whose entry matches the submitted name, score
and won flag; both terminal paths (`finish_victory`, `finish_death`) do
exactly this submission. -/
theorem C7_leaderboard_rank :
    (∀ (g : Game) (won : Bool),
      let score := g.score.getD 0
      let entry : ScoreEntry := ⟨g.player_name, score, won, g.sys_time⟩
      let sorted := (g.leaderboard ++ [entry]).mergeSort score_desc
      (g.push_score_and_rank won).leaderboard = sorted ∧
      sorted.Perm (g.leaderboard ++ [entry]) ∧
      List.Pairwise (fun a b => b.score ≤ a.score) sorted ∧
      ∃ i, (g.push_score_and_rank won).new_rank_pos = some i ∧
        (g.push_score_and_rank won).displayed_rank = some (i + 1) ∧
        ∃ hi : i < sorted.length,
          entry_matches g.player_name score won (sorted.get ⟨i, hi⟩) = true ∧
          ∀ j (hj : j < i),
            entry_matches g.player_name score won
              (sorted.get ⟨j, Nat.lt_trans hj hi⟩) = false) ∧
    (∀ g : Game, ∃ e : ScoreEntry,
      e.name = g.player_name ∧ e.won = true ∧ e.ts = g.sys_time ∧
      (g.finish_victory).score = some e.score ∧
      ((g.finish_victory).leaderboard).Perm (g.leaderboard ++ [e])) ∧
    (∀ g : Game, ∃ e : ScoreEntry,
      e.name = g.player_name ∧ e.won = false ∧ e.ts = g.sys_time ∧
      (g.finish_death).score = some e.score ∧
      ((g.finish_death).leaderboard).Perm (g.leaderboard ++ [e])) := by
  refine ⟨?_, ?_, ?_⟩
  · intro g won score entry sorted
    have hperm := List.mergeSort_perm (g.leaderboard ++ [entry]) score_desc
    have hpair : List.Pairwise (fun a b => b.score ≤ a.score) sorted := by
      have hs := List.sorted_mergeSort
        score_desc_trans score_desc_total (g.leaderboard ++ [entry])
      exact hs.imp fun h => by simpa [score_desc] using h
    have hmem : entry ∈ sorted := List.mem_mergeSort.mpr (by simp)
    have hp : entry_matches g.player_name score won entry = true := by
      simp [entry_matches]
    have hfind :
        sorted.findIdx? (entry_matches g.player_name score won)
          = some (sorted.findIdx (entry_matches g.player_name score won)) :=
      List.findIdx?_eq_some_of_exists ⟨entry, hmem, hp⟩
    obtain ⟨hi, hpi, hprev⟩ := List.findIdx?_eq_some_iff_getElem.mp hfind
    have hnr : (g.push_score_and_rank won).new_rank_pos
        = some (sorted.findIdx (entry_matches g.player_name score won)) := hfind
    refine ⟨rfl, hperm, hpair,
      sorted.findIdx (entry_matches g.player_name score won), hnr, ?_, hi, ?_, ?_⟩
    · simp [Game.displayed_rank, hnr]
    · simpa [List.get_eq_getElem] using hpi
    · intro j hj
      simpa [List.get_eq_getElem] using hprev j hj
  · intro g
    exact ⟨⟨g.player_name,
      (if g.player.hp = g.player.max_hp then
         match g.last_card_potion_value with
         | some v => g.player.hp + (v : Int)
         | none => g.player.hp
       else g.player.hp), true, g.sys_time⟩,
      rfl, rfl, rfl, rfl, List.mergeSort_perm _ _⟩
  · intro g
    exact ⟨⟨g.player_name,
      (g.player.hp -
        (((g.deck.cards.filter Card.is_monster).map fun c => (c.monster_value : Int)).sum
          + ((g.room.toList.reduceOption.filter Card.is_monster).map
              fun c => (c.monster_value : Int)).sum)), false, g.sys_time⟩,
      rfl, rfl, rfl, rfl, List.mergeSort_perm _ _⟩

/-- Witness for C7: pushing a winning 26 for "Scoundrel" onto an empty
board yields the singleton sorted board and displayed rank 1. -/
theorem C7_leaderboard_rank_witness :
    (Game.push_score_and_rank { base_game with score := some 26 } true).leaderboard
      = [⟨"Scoundrel", 26, true, 0⟩] ∧
    (Game.push_score_and_rank { base_game with score := some 26 } true).displayed_rank
      = some 1 := by
  obtain ⟨hlb, hperm, hpair, i, hnr, hdisp, hi, hmatch, hprev⟩ :=
    C7_leaderboard_rank.1 { base_game with score := some 26 } true
  constructor
  · rw [hlb]
    simp [base_game]
  · have hi1 : i < 1 := by simpa [base_game] using hi
    have hi0 : i = 0 := by omega
    subst hi0
    simpa using hdisp

/-- C6: `avoid_room` succeeds only in phase Running with
`avoided_last_turn` false and all four slots occupied; on success the four
cards go to the deck bottom in slot order 0..3 (each inserted below the
previous, below all undrawn cards), `avoided_last_turn` becomes true, the
per-turn counters reset, the room refills and the room counter advances;
on a violation only a log line is appended (outside Running, nothing at
all); a second avoid in immediate succession is such a violation. -/
theorem C6_avoid_room :
    (∀ g : Game, g.phase ≠ GamePhase.Running → g.avoid_room = g) ∧
    (∀ g : Game, g.phase = GamePhase.Running → g.avoided_last_turn = true →
       g.avoid_room
         = { g with log := g.log ++ ["You cannot avoid two rooms in a row."] }) ∧
    (∀ g : Game, g.phase = GamePhase.Running → g.avoided_last_turn = false →
       g.visible_count < 4 →
       g.avoid_room
         = { g with log := g.log ++ ["You may only avoid when 4 cards are visible."] }) ∧
    (∀ (g : Game) (c0 c1 c2 c3 : Card), g.phase = GamePhase.Running →
       g.avoided_last_turn = false →
       g.room = Room.mk (some c0) (some c1) (some c2) (some c3) →
       g.avoid_room =
         (let g2 : Game :=
            { g with room := Room.mk none none none none,
                     deck := ⟨c3 :: c2 :: c1 :: c0 :: g.deck.cards⟩,
                     avoided_last_turn := true, potion_used_this_turn := false,
                     choices_this_turn := 0,
                     log := g.log ++ ["You avoid the room, slipping past the dangers."],
                     history := g.history ++ [GameEvent.Avoid] }
          let g3 := g2.refill_room
          { g3 with room_number := g3.room_number + 1,
                    history := g3.history ++ [GameEvent.RoomStart (g3.room_number + 1)] }) ∧
       (g.avoid_room).avoided_last_turn = true ∧
       (g.avoid_room).potion_used_this_turn = false ∧
       (g.avoid_room).choices_this_turn = 0 ∧
       (g.avoid_room).room_number = g.room_number + 1 ∧
       (g.avoid_room).phase = GamePhase.Running) ∧
    (∀ g : Game, g.avoided_last_turn = true →
       g.avoid_room = g ∨
       g.avoid_room
         = { g with log := g.log ++ ["You cannot avoid two rooms in a row."] }) := by
  have hfail1 : ∀ g : Game, g.phase ≠ GamePhase.Running → g.avoid_room = g := by
    intro g hph
    unfold Game.avoid_room
    rw [if_pos hph]
  have hfail2 : ∀ g : Game, g.phase = GamePhase.Running → g.avoided_last_turn = true →
      g.avoid_room = { g with log := g.log ++ ["You cannot avoid two rooms in a row."] } := by
    intro g hph hav
    unfold Game.avoid_room
    rw [if_neg (by simp [hph]), if_pos (by simp [hav])]
  refine ⟨hfail1, hfail2, ?_, ?_, ?_⟩
  · intro g hph hav hlt
    unfold Game.avoid_room
    rw [if_neg (by simp [hph]), if_neg (by simp [hav]), if_pos hlt]
  · intro g c0 c1 c2 c3 hph hav hroom
    have hscoop : Game.scoop_slot (Game.scoop_slot (Game.scoop_slot
        (Game.scoop_slot g 0) 1) 2) 3
        = { g with room := Room.mk none none none none,
                   deck := ⟨c3 :: c2 :: c1 :: c0 :: g.deck.cards⟩ } := by
      simp only [Game.scoop_slot, Deck.push_bottom, hroom, room_get_0, room_get_1,
        room_get_2, room_get_3, room_set_0, room_set_1, room_set_2, room_set_3]
    have heq : g.avoid_room =
        (let g2 : Game :=
           { g with room := Room.mk none none none none,
                    deck := ⟨c3 :: c2 :: c1 :: c0 :: g.deck.cards⟩,
                    avoided_last_turn := true, potion_used_this_turn := false,
                    choices_this_turn := 0,
                    log := g.log ++ ["You avoid the room, slipping past the dangers."],
                    history := g.history ++ [GameEvent.Avoid] }
         let g3 := g2.refill_room
         { g3 with room_number := g3.room_number + 1,
                   history := g3.history ++ [GameEvent.RoomStart (g3.room_number + 1)] }) := by
      unfold Game.avoid_room
      rw [if_neg (by simp [hph]), if_neg (by simp [hav]),
        if_neg (by simp [Game.visible_count, Room.toList, hroom])]
      rw [hscoop]
      dsimp only
      rw [if_pos ?hrun]
      case hrun =>
        obtain ⟨d, r, s, hshape, -⟩ := refill_room_no_victory
          { g with room := Room.mk none none none none,
                   deck := ⟨c3 :: c2 :: c1 :: c0 :: g.deck.cards⟩,
                   avoided_last_turn := true, potion_used_this_turn := false,
                   choices_this_turn := 0,
                   log := g.log ++ ["You avoid the room, slipping past the dangers."],
                   history := g.history ++ [GameEvent.Avoid] }
          (Or.inr ⟨rfl, by simp⟩)
        rw [hshape]
        exact hph
    obtain ⟨d, r, s, hshape, -⟩ := refill_room_no_victory
      { g with room := Room.mk none none none none,
               deck := ⟨c3 :: c2 :: c1 :: c0 :: g.deck.cards⟩,
               avoided_last_turn := true, potion_used_this_turn := false,
               choices_this_turn := 0,
               log := g.log ++ ["You avoid the room, slipping past the dangers."],
               history := g.history ++ [GameEvent.Avoid] }
      (Or.inr ⟨rfl, by simp⟩)
    refine ⟨heq, ?_, ?_, ?_, ?_, ?_⟩
    all_goals rw [heq]; dsimp only; rw [hshape]
    all_goals first
      | rfl
      | exact hph
  · intro g hav
    by_cases hph : g.phase = GamePhase.Running
    · exact Or.inr (hfail2 g hph hav)
    · exact Or.inl (hfail1 g hph)

/-- Witness for C6: a successful avoid on a full room with a one-card
deck scoops slots 0..3 under the deck (order slot3, slot2, slot1, slot0
from the bottom), refills from the old top first, and advances the room;
an immediate second avoid only logs a refusal. -/
theorem C6_avoid_room_witness :
    (let g6 : Game :=
       { base_game with
         room := Room.mk (some (club 2)) (some (club 3)) (some (club 4)) (some (club 5)),
         deck := ⟨[heart 2]⟩ }
     (g6.avoid_room).avoided_last_turn = true ∧
     (g6.avoid_room).room_number = 2 ∧
     (g6.avoid_room).deck.cards = [club 5] ∧
     (g6.avoid_room).room
       = Room.mk (some (heart 2)) (some (club 2)) (some (club 3)) (some (club 4)) ∧
     (g6.avoid_room).avoid_room
       = { g6.avoid_room with
           log := (g6.avoid_room).log ++ ["You cannot avoid two rooms in a row."] }) := by
  intro g6
  obtain ⟨heq, hav, hpo, hch, hrn, hph⟩ :=
    C6_avoid_room.2.2.2.1 g6 (club 2) (club 3) (club 4) (club 5) rfl rfl rfl
  refine ⟨hav, ?_, ?_, ?_, ?_⟩
  · rw [hrn]
    rfl
  · rw [heq]; decide
  · rw [heq]; decide
  · exact C6_avoid_room.2.1 (g6.avoid_room) hph hav

/-- C9: HP never exceeds max HP — the player starts at 20/20, potion
healing is clamped to max HP, every other resolution leaves HP unchanged
or lower, and the invariant `hp ≤ max_hp` holds after every sequence of
public operations on a fresh run. -/
theorem C9_hp_never_exceeds_max :
    Player.new.hp = 20 ∧ Player.new.max_hp = 20 ∧
    (∀ (g : Game) (c : Card) (m : UseMode), g.player.hp ≤ g.player.max_hp →
       (g.resolve_card c m).player.hp ≤ (g.resolve_card c m).player.max_hp) ∧
    (∀ (g : Game) (d : Deck) (l : List Op),
       ((g.new_run d).apply_ops l).player.hp
         ≤ ((g.new_run d).apply_ops l).player.max_hp) := by
  refine ⟨rfl, rfl, resolve_hp_le_max, ?_⟩
  intro g d l
  apply apply_ops_inv
  rw [new_run_player]
  decide

/-- Witness for C9: a 9-potion at 15/20 stays clamped at or below max, and
a fresh run followed by a take and an avoid stays within max. -/
theorem C9_hp_never_exceeds_max_witness :
    (Game.resolve_card { base_game with player := ⟨15, 20, none⟩ }
        (heart 9) UseMode.Default).player.hp
      ≤ (Game.resolve_card { base_game with player := ⟨15, 20, none⟩ }
        (heart 9) UseMode.Default).player.max_hp ∧
    ((base_game.new_run ⟨[heart 5, club 2]⟩).apply_ops
        [Op.take UseMode.Default, Op.avoid]).player.hp
      ≤ ((base_game.new_run ⟨[heart 5, club 2]⟩).apply_ops
        [Op.take UseMode.Default, Op.avoid]).player.max_hp :=
  ⟨C9_hp_never_exceeds_max.2.2.1 { base_game with player := ⟨15, 20, none⟩ }
      (heart 9) UseMode.Default (by decide),
   C9_hp_never_exceeds_max.2.2.2 base_game ⟨[heart 5, club 2]⟩
      [Op.take UseMode.Default, Op.avoid]⟩

/-- Counterexample to C1 as stated: taking the last visible card with the
deck already empty ends the turn (HP stays positive, a card was taken, the
per-turn flags are reset and the room refilled — here trivially), but the
room counter is NOT advanced: the refill discovers victory and the game
moves to GameOver, skipping the counter advance.  C1's description of the
turn end as including "room counter advanced" is therefore false on this
input. -/
theorem C1_pick_limit_counterexample :
    (let gc : Game := { base_game with player := ⟨5, 20, none⟩, room := Room.mk (some (heart 2)) none none none }
     gc.phase = GamePhase.Running ∧
     gc.choices_this_turn = 0 ∧
     gc.visible_count = 1 ∧
     gc.deck.cards = [] ∧
     (gc.take_selected UseMode.Default).player.hp = 7 ∧
     (gc.take_selected UseMode.Default).discard = [heart 2] ∧
     (gc.take_selected UseMode.Default).choices_this_turn = 0 ∧
     (gc.take_selected UseMode.Default).potion_used_this_turn = false ∧
     (gc.take_selected UseMode.Default).avoided_last_turn = false ∧
     (gc.take_selected UseMode.Default).room_number = gc.room_number ∧
     (gc.take_selected UseMode.Default).phase = GamePhase.GameOver) := by
  intro gc
  refine ⟨rfl, rfl, rfl, rfl, ?_, ?_, ?_, ?_, ?_, ?_, ?_⟩ <;> decide

/-- C1 (amended): in phase Running, if 3 picks were already made and at
least 2 cards are visible, the turn is force-ended with no card taken
(player, discard untouched, per-turn flags reset); otherwise, when a card
is taken and HP stays positive, the pick counter increments and the turn
ends — per-turn flags reset, room refilled, and the room counter advanced
when the game is still Running after the refill (a victory discovered
during the refill ends the run without advancing it) — if and only if at
most one room card remains visible or 3 picks have now been made. -/
theorem C1_pick_limit_rule :
    (∀ (g : Game) (m : UseMode), g.phase = GamePhase.Running →
       3 ≤ g.choices_this_turn → 2 ≤ g.visible_count →
       g.take_selected m
           = Game.end_turn
               { g with log := g.log ++ ["You\x27ve already taken 3 cards. Ending turn."] } ∧
       (g.take_selected m).player = g.player ∧
       (g.take_selected m).discard = g.discard ∧
       (g.take_selected m).choices_this_turn = 0 ∧
       (g.take_selected m).avoided_last_turn = false ∧
       (g.take_selected m).potion_used_this_turn = false) ∧
    (∀ (g : Game) (m : UseMode) (card : Card), g.phase = GamePhase.Running →
       ¬(3 ≤ g.choices_this_turn ∧ 2 ≤ g.visible_count) →
       g.room.get g.selected = some card →
       0 < (Game.resolve_card { g with room := g.room.set g.selected none }
           card m).player.hp →
       (let gr := Game.resolve_card { g with room := g.room.set g.selected none } card m
        let g3 : Game := { gr with choices_this_turn := gr.choices_this_turn + 1 }
        g3.choices_this_turn = g.choices_this_turn + 1 ∧
        g.take_selected m
          = (if g3.visible_count ≤ 1 then g3.end_turn
             else if 3 ≤ g3.choices_this_turn then g3.end_turn
             else g3) ∧
        ((g3.visible_count ≤ 1 ∨ 3 ≤ g3.choices_this_turn) →
           (g.take_selected m).choices_this_turn = 0 ∧
           (g.take_selected m).avoided_last_turn = false ∧
           (g.take_selected m).potion_used_this_turn = false ∧
           ((g.take_selected m).phase = GamePhase.Running →
              (g.take_selected m).room_number = g.room_number + 1)) ∧
        (¬(g3.visible_count ≤ 1 ∨ 3 ≤ g3.choices_this_turn) →
           g.take_selected m = g3 ∧
           (g.take_selected m).choices_this_turn = g.choices_this_turn + 1 ∧
           (g.take_selected m).room_number = g.room_number))) := by
  constructor
  · intro g m hph hch hv
    have heq : g.take_selected m
        = Game.end_turn
            { g with log := g.log ++ ["You\x27ve already taken 3 cards. Ending turn."] } := by
      unfold Game.take_selected
      rw [if_neg (by simp [hph]), if_pos ⟨hch, hv⟩]
    have he := end_turn_effects
      { g with log := g.log ++ ["You\x27ve already taken 3 cards. Ending turn."] }
    refine ⟨heq, ?_, ?_, ?_, ?_, ?_⟩ <;> rw [heq]
    · rw [he.2.2.2.1]
    · rw [he.2.2.2.2.1]
    · rw [he.2.2.1]
    · rw [he.1]
    · rw [he.2.1]
  · intro g m card hph hnf hc halive
    intro gr g3
    have hfr := resolve_frame { g with room := g.room.set g.selected none } card m
    have hchoices : gr.choices_this_turn = g.choices_this_turn := hfr.2.2.2.2.1
    have hroomnum : gr.room_number = g.room_number := hfr.2.2.2.2.2.2.1
    have heq := take_selected_alive g m card hph hnf hc halive
    have he3 := end_turn_effects g3
    refine ⟨by dsimp only; rw [hchoices], heq, ?_, ?_⟩
    · intro hend
      have heq2 : g.take_selected m = g3.end_turn := by
        rw [heq]
        show (if g3.visible_count ≤ 1 then g3.end_turn
              else if 3 ≤ g3.choices_this_turn then g3.end_turn
              else g3) = g3.end_turn
        rcases hend with h1 | h3
        · rw [if_pos h1]
        · by_cases h1 : g3.visible_count ≤ 1
          · rw [if_pos h1]
          · rw [if_neg h1, if_pos h3]
      rw [heq2]
      refine ⟨he3.2.2.1, he3.1, he3.2.1, ?_⟩
      intro hrun
      rw [he3.2.2.2.2.2 hrun]
      dsimp only
      rw [hroomnum]
    · intro hnotend
      push_neg at hnotend
      have heq2 : g.take_selected m = g3 := by
        rw [heq]
        show (if g3.visible_count ≤ 1 then g3.end_turn
              else if 3 ≤ g3.choices_this_turn then g3.end_turn
              else g3) = g3
        rw [if_neg (by omega), if_neg (by omega)]
      rw [heq2]
      refine ⟨rfl, ?_, ?_⟩
      · dsimp only; rw [hchoices]
      · dsimp only; rw [hroomnum]

/-- Witness for C1 (amended): a force-end with 3 picks made and 4 cards
visible resets the counters and takes nothing; a normal take of one of two
visible cards with a stocked deck ends the turn and advances the room
counter to 2. -/
theorem C1_pick_limit_rule_witness :
    (let gf : Game := { base_game with choices_this_turn := 3, room := Room.mk (some (club 2)) (some (club 3)) (some (club 4)) (some (club 5)), deck := ⟨[heart 2]⟩ }
     (gf.take_selected UseMode.Default).player = gf.player ∧
     (gf.take_selected UseMode.Default).discard = gf.discard ∧
     (gf.take_selected UseMode.Default).choices_this_turn = 0) ∧
    (let gn : Game := { base_game with room := Room.mk (some (heart 2)) (some (heart 3)) none none, deck := ⟨[club 2, club 3, club 4]⟩ }
     (gn.take_selected UseMode.Default).choices_this_turn = 0 ∧
     (gn.take_selected UseMode.Default).room_number = 2) := by
  constructor
  · intro gf
    have h := C1_pick_limit_rule.1 gf UseMode.Default rfl (by decide) (by decide)
    exact ⟨h.2.1, h.2.2.1, h.2.2.2.1⟩
  · intro gn
    have h := C1_pick_limit_rule.2 gn UseMode.Default (heart 2) rfl (by decide) rfl
      (by decide)
    have hend := h.2.2.1 (Or.inl (by decide))
    refine ⟨hend.1, ?_⟩
    have hrn := hend.2.2.2 (by decide)
    rw [hrn]
    rfl

end Scoundrel
